import Mathlib

/-!
Verification of the wafr-documentation repository's text-transformation
scripts.  The Python scripts are embedded shallowly: file contents are
`List Char`, each regular-expression operation used by the scripts is
implemented as an executable scanning function with the same matching
semantics (leftmost match, non-greedy captures realised as first-occurrence
splits, greedy character classes realised as `takeWhile`), and each script's
pure transformation is a Lean function composed exactly as the source
composes its substitutions.
-/

namespace Wafr

set_option maxRecDepth 1000000

/-! ## Character classes and Python string helpers -/

/-- ASCII uppercase letters, the `[A-Z]` class. -/
def isUpperAZ (c : Char) : Bool := 'A' ≤ c && c ≤ 'Z'

/-- ASCII digits, the `\d` class. -/
def isDigit09 (c : Char) : Bool := '0' ≤ c && c ≤ '9'

/-- The characters Python's `\s` class and `str.strip()` treat as whitespace. -/
def isPySpace (c : Char) : Bool :=
  c = ' ' || c = '\t' || c = '\n' || c = '\r' || c = '\x0b' || c = '\x0c'

/-- Python's `str.strip()`: drop leading and trailing whitespace. -/
def pystrip (s : List Char) : List Char :=
  ((s.dropWhile isPySpace).reverse.dropWhile isPySpace).reverse

/-! ## Generic scanning primitives -/

/-- Split `s` at the first (leftmost) suffix satisfying `p`:
returns `some (pre, rest)` with `s = pre ++ rest`, `p rest = true` and no
earlier split point.  Returns `none` when no suffix satisfies `p`. -/
def splitAtFirstP (p : List Char → Bool) : List Char → Option (List Char × List Char)
  | [] => if p [] then some ([], []) else none
  | c :: t =>
    if p (c :: t) then some ([], c :: t)
    else (splitAtFirstP p t).map (fun pr => (c :: pr.1, pr.2))

/-- Split `s` at the first occurrence of the literal `pat`. -/
def splitAtFirst (pat : List Char) (s : List Char) : Option (List Char × List Char) :=
  splitAtFirstP (fun t => pat.isPrefixOf t) s

/-- Leftmost match scan: returns the unmatched text before the first
position where `try1` succeeds, together with the match payload. -/
def findFirstMatch {α : Type} (try1 : List Char → Option α) :
    List Char → Option (List Char × α)
  | [] => (try1 []).map (fun a => (([] : List Char), a))
  | c :: t =>
    match try1 (c :: t) with
    | some a => some ([], a)
    | none => (findFirstMatch try1 t).map (fun pr => (c :: pr.1, pr.2))

/-- One global substitution pass (the semantics of `re.sub` / `str.replace`):
at each position, if `try1` matches, emit its replacement and continue after
the matched span, otherwise copy one character.  `fuel` bounds recursion and
is always instantiated with the length of the scanned text. -/
def scanSub (try1 : List Char → Option (List Char × List Char)) :
    Nat → List Char → List Char
  | 0, s => s
  | _ + 1, [] => []
  | n + 1, c :: t =>
    match try1 (c :: t) with
    | some (r, rem) => r ++ scanSub try1 n rem
    | none => c :: scanSub try1 n t

/-- `re.findall` semantics: collect payloads of non-overlapping leftmost
matches, continuing each scan at the end of the previous match. -/
def scanAll {α : Type} (try1 : List Char → Option (α × List Char)) :
    Nat → List Char → List α
  | 0, _ => []
  | _ + 1, [] => []
  | n + 1, c :: t =>
    match try1 (c :: t) with
    | some (a, rem) => a :: scanAll try1 n rem
    | none => scanAll try1 n t

/-- Matcher for a literal pattern with a fixed replacement (`str.replace`). -/
def tryLit (pat repl : List Char) (s : List Char) : Option (List Char × List Char) :=
  if pat.isPrefixOf s then some (repl, s.drop pat.length) else none

/-- Python's `str.replace(pat, repl)` (all occurrences, left to right). -/
def replaceAll (pat repl s : List Char) : List Char :=
  scanSub (tryLit pat repl) s.length s

/-- Consume a literal prefix, returning the remainder. -/
def dropLit (pat s : List Char) : Option (List Char) :=
  if pat.isPrefixOf s then some (s.drop pat.length) else none

/-- Concatenation of a list of fragments. -/
def concatAll {α : Type} (l : List (List α)) : List α := l.foldr (fun a b => a ++ b) []

/-- Count of non-overlapping occurrences of `pat`, scanning left to right. -/
def countOcc (pat : List Char) : Nat → List Char → Nat
  | 0, _ => 0
  | _ + 1, [] => 0
  | n + 1, c :: t =>
    if pat.isPrefixOf (c :: t) then 1 + countOcc pat n ((c :: t).drop pat.length)
    else countOcc pat n t

/-! ## Embedding of `scripts/apply_styling.py` (`convert_to_styled_format`)

Each `try…At` function is the per-position matcher of one regular
expression from the script; leftmost-match searches are `findFirstMatch`
applied to it. -/

/-- `re.match(r'^---\n(.*?)\n---\n', content, re.DOTALL)`:
returns the whole front-matter block (group 0) and the remaining content. -/
def matchFrontMatter (content : List Char) : Option (List Char × List Char) :=
  match dropLit ("---\n").toList content with
  | none => none
  | some r =>
    match splitAtFirst ("\n---\n").toList r with
    | none => none
    | some (g1, rest) =>
      some (("---\n").toList ++ g1 ++ ("\n---\n").toList, rest.drop 5)

/-- Per-position matcher of `# ([A-Z]+\d+): (.*?)\n` (no DOTALL):
yields the question id (group 1) and title (group 2). -/
def tryTitleAt (s : List Char) : Option (List Char × List Char) :=
  match dropLit ("# ").toList s with
  | none => none
  | some r1 =>
    let us := r1.takeWhile isUpperAZ
    if us.isEmpty then none else
    let r2 := r1.drop us.length
    let ds := r2.takeWhile isDigit09
    if ds.isEmpty then none else
    let r3 := r2.drop ds.length
    match dropLit (": ").toList r3 with
    | none => none
    | some r4 =>
      let ttl := r4.takeWhile (fun c => c ≠ '\n')
      match r4.drop ttl.length with
      | '\n' :: _ => some (us ++ ds, ttl)
      | _ => none

/-- Per-position matcher of `# [A-Z]+\d+: .*?\n\n(.*?)\n\n` (DOTALL):
yields the whole matched span (group 0), the description (group 1) and the
text after the match. -/
def tryDescAt (s : List Char) : Option (List Char × List Char × List Char) :=
  match dropLit ("# ").toList s with
  | none => none
  | some r1 =>
    let us := r1.takeWhile isUpperAZ
    if us.isEmpty then none else
    let r2 := r1.drop us.length
    let ds := r2.takeWhile isDigit09
    if ds.isEmpty then none else
    let r3 := r2.drop ds.length
    match dropLit (": ").toList r3 with
    | none => none
    | some r4 =>
      match splitAtFirst ("\n\n").toList r4 with
      | none => none
      | some (m1, r5) =>
        match splitAtFirst ("\n\n").toList (r5.drop 2) with
        | none => none
        | some (g1, r7) =>
          some (("# ").toList ++ us ++ ds ++ (": ").toList ++ m1 ++ ("\n\n").toList ++
                  g1 ++ ("\n\n").toList,
                g1, r7.drop 2)

/-- Per-position matcher of `# [A-Z]+\d+: .*?\n\n` (no DOTALL, so the
non-greedy part stays on one line): yields the text after the match. -/
def tryTitleOnlyAt (s : List Char) : Option (List Char) :=
  match dropLit ("# ").toList s with
  | none => none
  | some r1 =>
    let us := r1.takeWhile isUpperAZ
    if us.isEmpty then none else
    let r2 := r1.drop us.length
    let ds := r2.takeWhile isDigit09
    if ds.isEmpty then none else
    let r3 := r2.drop ds.length
    match dropLit (": ").toList r3 with
    | none => none
    | some r4 =>
      let a := r4.takeWhile (fun c => c ≠ '\n')
      dropLit ("\n\n").toList (r4.drop a.length)

/-- `re.sub(r'# [A-Z]+\d+: .*?\n\n', '', s, 1)`: remove the first match. -/
def subTitleOnly (s : List Char) : List Char :=
  match findFirstMatch tryTitleOnlyAt s with
  | some (pre, rest) => pre ++ rest
  | none => s

/-- `re.search(lit + r'(.*?)(?=\n##|\Z)', s, re.DOTALL)` for a section
heading literal `lit`: returns the captured section body (group 1).
Group 0 of that search is `lit ++ body`. -/
def searchSection (lit : List Char) (s : List Char) : Option (List Char) :=
  match splitAtFirst lit s with
  | none => none
  | some (_, r) =>
    let r' := r.drop lit.length
    match splitAtFirst ("\n##").toList r' with
    | none => some r'
    | some (c, _) => some c

/-- Per-position matcher of `### (.*?)\n(.*?)(?=\n###|\Z)` (DOTALL):
yields (title, body) and the rest of the text after the match. -/
def tryPracticeAt (s : List Char) :
    Option ((List Char × List Char) × List Char) :=
  match dropLit ("### ").toList s with
  | none => none
  | some r1 =>
    match splitAtFirst ("\n").toList r1 with
    | none => none
    | some (t, r2) =>
      match splitAtFirst ("\n###").toList (r2.drop 1) with
      | none => some ((t, r2.drop 1), [])
      | some (c, r4) => some ((t, c), r4)

/-- Lookahead `(?=\n\d+\.)`: the text starts with a newline, digits, dot. -/
def lookNumDot (t : List Char) : Bool :=
  match t with
  | '\n' :: r =>
    let ds := r.takeWhile isDigit09
    !ds.isEmpty &&
      (match r.drop ds.length with
       | '.' :: _ => true
       | _ => false)
  | _ => false

/-- Per-position matcher of `\d+\.\s+\*\*(.*?)\*\*:(.*?)(?=\n\d+\.|\Z)`
(DOTALL): yields (step title, step body) and the rest after the match. -/
def tryStep1At (s : List Char) :
    Option ((List Char × List Char) × List Char) :=
  let ds := s.takeWhile isDigit09
  if ds.isEmpty then none else
  match s.drop ds.length with
  | '.' :: r1 =>
    let ws := r1.takeWhile isPySpace
    if ws.isEmpty then none else
    let r2 := r1.drop ws.length
    match dropLit ("**").toList r2 with
    | none => none
    | some r3 =>
      match splitAtFirst ("**:").toList r3 with
      | none => none
      | some (t, r4) =>
        match splitAtFirstP lookNumDot (r4.drop 3) with
        | none => some ((t, r4.drop 3), [])
        | some (c, r6) => some ((t, c), r6)
  | _ => none

/-- Per-position matcher of `(\d+\.\s+.*?)(?=\n\d+\.|\Z)` (DOTALL):
yields the whole numbered item and the rest after the match. -/
def tryStep2At (s : List Char) : Option (List Char × List Char) :=
  let ds := s.takeWhile isDigit09
  if ds.isEmpty then none else
  match s.drop ds.length with
  | '.' :: r1 =>
    let ws := r1.takeWhile isPySpace
    if ws.isEmpty then none else
    let r2 := r1.drop ws.length
    match splitAtFirstP lookNumDot r2 with
    | none => some (ds ++ '.' :: (ws ++ r2), [])
    | some (c, r3) => some (ds ++ '.' :: (ws ++ c), r3)
  | _ => none

/-- `re.sub(r'^\d+\.\s+', '', s)`: strip a leading `<digits>.<spaces>`. -/
def stripNumDot (s : List Char) : List Char :=
  let ds := s.takeWhile isDigit09
  if ds.isEmpty then s else
  match s.drop ds.length with
  | '.' :: r1 =>
    let ws := r1.takeWhile isPySpace
    if ws.isEmpty then s else r1.drop ws.length
  | _ => s

/-- Per-position matcher of `- \*\*(.*?)\*\* - (.*?)(?=\n-|\Z)` (DOTALL):
yields (service name, description) and the rest after the match. -/
def tryServ1At (s : List Char) :
    Option ((List Char × List Char) × List Char) :=
  match dropLit ("- **").toList s with
  | none => none
  | some r1 =>
    match splitAtFirst ("** - ").toList r1 with
    | none => none
    | some (n, r2) =>
      match splitAtFirst ("\n-").toList (r2.drop 5) with
      | none => some ((n, r2.drop 5), [])
      | some (c, r4) => some ((n, c), r4)

/-- Per-position matcher of `- (.*?)(?=\n-|\Z)` (DOTALL): yields the list
item and the rest after the match. -/
def tryDashItemAt (s : List Char) : Option (List Char × List Char) :=
  match dropLit ("- ").toList s with
  | none => none
  | some r1 =>
    match splitAtFirst ("\n-").toList r1 with
    | none => some (r1, [])
    | some (c, r2) => some (c, r2)

/-- Per-position matcher of `- \[(.*?)\]\((.*?)\)` (no DOTALL, so neither
capture may span a newline): yields (name, url) and the rest after. -/
def tryRes1At (s : List Char) :
    Option ((List Char × List Char) × List Char) :=
  match dropLit ("- [").toList s with
  | none => none
  | some r1 =>
    match splitAtFirst ("](").toList r1 with
    | none => none
    | some (n, r2) =>
      if n.contains '\n' then none else
      match splitAtFirst (")").toList (r2.drop 2) with
      | none => none
      | some (u, r4) =>
        if u.contains '\n' then none else
        some ((n, u), r4.drop 1)

/-- `re.findall(r'### (.*?)\n(.*?)(?=\n###|\Z)', s, re.DOTALL)`. -/
def findallPractices (s : List Char) : List (List Char × List Char) :=
  scanAll tryPracticeAt s.length s

/-- `re.findall(r'\d+\.\s+\*\*(.*?)\*\*:(.*?)(?=\n\d+\.|\Z)', s, re.DOTALL)`. -/
def findallSteps1 (s : List Char) : List (List Char × List Char) :=
  scanAll tryStep1At s.length s

/-- `re.findall(r'(\d+\.\s+.*?)(?=\n\d+\.|\Z)', s, re.DOTALL)`. -/
def findallSteps2 (s : List Char) : List (List Char) :=
  scanAll tryStep2At s.length s

/-- `re.findall(r'- \*\*(.*?)\*\* - (.*?)(?=\n-|\Z)', s, re.DOTALL)`. -/
def findallServices1 (s : List Char) : List (List Char × List Char) :=
  scanAll tryServ1At s.length s

/-- `re.findall(r'- (.*?)(?=\n-|\Z)', s, re.DOTALL)`. -/
def findallDashItems (s : List Char) : List (List Char) :=
  scanAll tryDashItemAt s.length s

/-- `re.findall(r'- \[(.*?)\]\((.*?)\)', s)`. -/
def findallResources1 (s : List Char) : List (List Char × List Char) :=
  scanAll tryRes1At s.length s

/-- The `## Best Practices` heading literal. -/
def bpLit : List Char := ("## Best Practices\n\n").toList

/-- The `## Implementation Guidance` heading literal. -/
def implLit : List Char := ("## Implementation Guidance\n\n").toList

/-- The `## AWS Services to Consider` heading literal. -/
def servLit : List Char := ("## AWS Services to Consider\n\n").toList

/-- The `## Related Resources` heading literal. -/
def resLit : List Char := ("## Related Resources\n\n").toList

/-- The `best-practice` wrapper emitted for one sub-item. -/
def bpWrap (t c : List Char) : List Char :=
  ("<div class=\"best-practice\">\n  <h4>").toList ++ t ++
    ("</h4>\n  <p>").toList ++ c ++ ("</p>\n</div>\n\n").toList

/-- The replacement text built for a matched `## Best Practices` section. -/
def styleBPBody (cap : List Char) : List Char :=
  ("## Best Practices\n\n").toList ++
    (match findallPractices cap with
     | [] => bpWrap ("Best Practice").toList (pystrip cap)
     | ps => concatAll (ps.map (fun pr => bpWrap pr.1 (pystrip pr.2))))

/-- The `implementation-step` wrapper emitted for one step. -/
def implWrap (h c : List Char) : List Char :=
  ("<div class=\"implementation-step\">\n  <h4>").toList ++ h ++
    ("</h4>\n  <p>").toList ++ c ++ ("</p>\n</div>\n\n").toList

/-- The replacement text built for a matched `## Implementation Guidance`
section. -/
def styleImplBody (cap : List Char) : List Char :=
  ("## Implementation Guidance\n\n").toList ++
    (match findallSteps1 cap with
     | [] =>
       match findallSteps2 cap with
       | [] => implWrap ("Implementation Guidance").toList (pystrip cap)
       | steps =>
         concatAll (steps.enum.map (fun pr =>
           implWrap (("Step ").toList ++ (Nat.repr (pr.1 + 1)).toList)
             (stripNumDot (pystrip pr.2))))
     | steps =>
       concatAll (steps.enum.map (fun pr =>
         implWrap ((Nat.repr (pr.1 + 1)).toList ++ (". ").toList ++ pr.2.1)
           (pystrip pr.2.2))))

/-- The `aws-service` wrapper emitted for one service. -/
def servWrap (n d : List Char) : List Char :=
  ("<div class=\"aws-service\">\n  <div class=\"aws-service-content\">\n    <h4>").toList ++
    n ++ ("</h4>\n    <p>").toList ++ d ++ ("</p>\n  </div>\n</div>\n\n").toList

/-- The replacement text built for a matched `## AWS Services to Consider`
section. -/
def styleServBody (cap : List Char) : List Char :=
  ("## AWS Services to Consider\n\n").toList ++
    (match findallServices1 cap with
     | [] =>
       match findallDashItems cap with
       | [] =>
         servWrap ("AWS Services").toList
           ("Add relevant AWS services for this question.").toList
       | svcs =>
         concatAll (svcs.map (fun sv =>
           servWrap (pystrip sv) ("AWS service for this question.").toList))
     | svcs => concatAll (svcs.map (fun sv => servWrap sv.1 (pystrip sv.2))))

/-- The replacement text built for a matched `## Related Resources`
section (this one also replaces the heading itself). -/
def styleResBody (cap : List Char) : List Char :=
  ("<div class=\"related-resources\">\n  <h2>Related Resources</h2>\n  <ul>\n").toList ++
    (match findallResources1 cap with
     | [] =>
       match findallDashItems cap with
       | [] => ("    <li>Add related resources for this question.</li>\n").toList
       | rs =>
         concatAll (rs.map (fun r =>
           ("    <li>").toList ++ pystrip r ++ ("</li>\n").toList))
     | rs =>
       concatAll (rs.map (fun r =>
         ("    <li><a href=\"").toList ++ r.2 ++ ("\">").toList ++ r.1 ++
           ("</a></li>\n").toList))) ++
    ("  </ul>\n</div>").toList

/-- The `## Best Practices` step of the transform: search the section and
replace its matched text (group 0) everywhere via `str.replace`. -/
def styleBestPractices (s : List Char) : List Char :=
  match searchSection bpLit s with
  | none => s
  | some cap => replaceAll (bpLit ++ cap) (styleBPBody cap) s

/-- The `## Implementation Guidance` step of the transform. -/
def styleImplementation (s : List Char) : List Char :=
  match searchSection implLit s with
  | none => s
  | some cap => replaceAll (implLit ++ cap) (styleImplBody cap) s

/-- The `## AWS Services to Consider` step of the transform. -/
def styleServices (s : List Char) : List Char :=
  match searchSection servLit s with
  | none => s
  | some cap => replaceAll (servLit ++ cap) (styleServBody cap) s

/-- The `## Related Resources` step of the transform. -/
def styleResources (s : List Char) : List Char :=
  match searchSection resLit s with
  | none => s
  | some cap => replaceAll (resLit ++ cap) (styleResBody cap) s

/-- The default description used when no paragraph follows the heading. -/
def defaultDescription : List Char :=
  ("*This page contains guidance for addressing this question from the AWS Well-Architected Framework.*").toList

/-- The `pillar-header` block built from id, title and description. -/
def pillarHeader (qid ttl desc : List Char) : List Char :=
  ("<div class=\"pillar-header\">\n  <h1>").toList ++ qid ++ (": ").toList ++ ttl ++
    ("</h1>\n  <p>").toList ++ desc ++ ("</p>\n</div>\n\n").toList

/-- `convert_to_styled_format` from `scripts/apply_styling.py`. -/
def convert_to_styled_format (content : List Char) : List Char :=
  match matchFrontMatter content with
  | none => content
  | some (front_matter, rest) =>
    match findFirstMatch tryTitleAt rest with
    | none => content
    | some (_, qid, ttl) =>
      let description :=
        match findFirstMatch tryDescAt rest with
        | some (_, _, g1, _) => g1
        | none => defaultDescription
      let new_header := pillarHeader qid ttl description
      let cwh :=
        match findFirstMatch tryDescAt rest with
        | some (pre, _, _, after) => pre ++ after
        | none => rest
      let cwh2 := if cwh.isEmpty then subTitleOnly rest else cwh
      front_matter ++ new_header ++
        styleResources (styleServices (styleImplementation (styleBestPractices cwh2)))

/-! ## Embedding of `scripts/fix_all_pillar_links.py` (`fix_pillar_links`)

The pattern is `href="(\./[A-Z]+\d+(?:-BP\d+)?)"` and the replacement drops
the `./` prefix and appends `.html`. -/

/-- Per-position matcher of the `fix_pillar_links` pattern, returning the
replacement text `href="<ID>.html"` and the remainder after the match. -/
def tryMatchHref (s : List Char) : Option (List Char × List Char) :=
  match dropLit ("href=\"./").toList s with
  | none => none
  | some r1 =>
    let us := r1.takeWhile isUpperAZ
    if us.isEmpty then none else
    let r2 := r1.drop us.length
    let ds := r2.takeWhile isDigit09
    if ds.isEmpty then none else
    let r3 := r2.drop ds.length
    match dropLit ("-BP").toList r3 with
    | some r4 =>
      let ds2 := r4.takeWhile isDigit09
      if ds2.isEmpty then none else
      match dropLit ("\"").toList (r4.drop ds2.length) with
      | some rest =>
        some (("href=\"").toList ++ us ++ ds ++ ('-' :: 'B' :: 'P' :: ds2) ++
                (".html\"").toList, rest)
      | none => none
    | none =>
      match dropLit ("\"").toList r3 with
      | some rest =>
        some (("href=\"").toList ++ us ++ ds ++ (".html\"").toList, rest)
      | none => none

/-- The pure substitution applied by `fix_pillar_links` to a file's text. -/
def fix_pillar_links_sub (s : List Char) : List Char :=
  scanSub tryMatchHref s.length s

/-! ## Embedding of `scripts/fix_relative_links.py` (`fix_pillar_index_links`)

The pattern is `href="({pillar}\d+(?:-BP\d+)?\.html)"` for a pillar
abbreviation such as `SEC`, and the replacement prepends `./`. -/

/-- Per-position matcher of the `fix_pillar_index_links` pattern for pillar
prefix `pfx`, returning the replacement text `href="./<link>"` and the
remainder after the match. -/
def tryMatchIdxHref (pfx : List Char) (s : List Char) : Option (List Char × List Char) :=
  match dropLit (("href=\"").toList ++ pfx) s with
  | none => none
  | some r1 =>
    let ds := r1.takeWhile isDigit09
    if ds.isEmpty then none else
    let r2 := r1.drop ds.length
    match dropLit ("-BP").toList r2 with
    | some r3 =>
      let ds2 := r3.takeWhile isDigit09
      if ds2.isEmpty then none else
      match dropLit (".html\"").toList (r3.drop ds2.length) with
      | some rest =>
        some (("href=\"./").toList ++ pfx ++ ds ++ ('-' :: 'B' :: 'P' :: ds2) ++
                (".html\"").toList, rest)
      | none => none
    | none =>
      match dropLit (".html\"").toList r2 with
      | some rest => some (("href=\"./").toList ++ pfx ++ ds ++ (".html\"").toList, rest)
      | none => none

/-- The pure substitution applied by `fix_pillar_index_links` to a file. -/
def fix_pillar_index_links_sub (pfx : List Char) (s : List Char) : List Char :=
  scanSub (tryMatchIdxHref pfx) s.length s

/-! ## Embedding of `scripts/update_pillar_order.py` (`update_pillar_nav_order`) -/

/-- The replacement line `f'nav_order: {nav_order}\n'`. -/
def navOrderLine (n : Nat) : List Char :=
  ("nav_order: ").toList ++ (Nat.repr n).toList ++ ['\n']

/-- `line.strip().startswith('nav_order:')`. -/
def startsNavOrder (l : List Char) : Bool :=
  ("nav_order:").toList.isPrefixOf (pystrip l)

/-- The in-memory edit of `update_pillar_nav_order`: replace the first line
whose stripped text starts with `nav_order:`, leave everything else as is. -/
def update_nav_lines (n : Nat) : List (List Char) → List (List Char)
  | [] => []
  | l :: ls =>
    if startsNavOrder l then navOrderLine n :: ls else l :: update_nav_lines n ls

/-! ## Model of `scripts/generate_wafr_pages.py`

The network fetch and HTML parse inside the `try` block are summarised by
an abstract outcome: `Except.ok` carries the parsed questions-by-pillar
mapping, `Except.error` the exception text.  Side effects (prints, exit
code, files written) are returned as data. -/

/-- A question parsed from the appendix: identifier and title. -/
structure WafrQuestion where
  id : List Char
  title : List Char
deriving DecidableEq, Repr

/-- Outcome of `fetch_wafr_questions`: log lines and the returned value
(`None` on exception, the mapping otherwise). -/
def fetch_wafr_questions
    (attempt : Except (List Char) (List (List Char × List WafrQuestion))) :
    List (List Char) × Option (List (List Char × List WafrQuestion)) :=
  match attempt with
  | .ok q => ([], some q)
  | .error e => ([("Error fetching WAFR questions: ").toList ++ e], none)

/-- `pillar.lower().replace(' ', '-')`. -/
def pillarDirName (p : List Char) : List Char :=
  (p.map Char.toLower).map (fun c => if c = ' ' then '-' else c)

/-- The path of the file written by `generate_question_file`. -/
def question_file_path (pillar : List Char) (q : WafrQuestion) : List Char :=
  ("docs/").toList ++ pillarDirName pillar ++ ['/'] ++ q.id ++ (".md").toList

/-- The files `main` writes for one run, given the fetched mapping. -/
def generated_files (qs : List (List Char × List WafrQuestion)) : List (List Char) :=
  concatAll (qs.map (fun pq => pq.2.map (question_file_path pq.1)))

/-- The observable outcome of `main`: log lines, exit code, files written. -/
def generate_pages_main
    (attempt : Except (List Char) (List (List Char × List WafrQuestion))) :
    List (List Char) × Nat × List (List Char) :=
  let fetched := fetch_wafr_questions attempt
  match fetched.2 with
  | none =>
    (("Fetching AWS Well-Architected Framework questions...").toList ::
       fetched.1 ++ [("Failed to fetch questions. Exiting.").toList], 1, [])
  | some q =>
    (("Fetching AWS Well-Architected Framework questions...").toList ::
       fetched.1 ++ [("Generating Markdown files for each question...").toList], 0,
     generated_files q)

/-! ## Model of `Docs/dr-plan/pdf/ecr-replication.py`

Registry operations are reified as a call trace; exceptions in the
straight-line per-image body are modelled by an oracle that decides which
call fails, execution stopping right after the first failing call. -/

/-- One ECR registry call issued by the script. -/
inductive EcrCall where
  | putImage (repo tag manifest : List Char)
  | deleteImage (repo tag : List Char)
deriving DecidableEq, Repr

/-- The four calls of the per-image re-tagging body, in source order. -/
def retag_calls (repo tag manifest : List Char) : List EcrCall :=
  [EcrCall.putImage repo (tag ++ ("-temp").toList) manifest,
   EcrCall.deleteImage repo tag,
   EcrCall.putImage repo tag manifest,
   EcrCall.deleteImage repo (tag ++ ("-temp").toList)]

/-- Straight-line execution with exceptions: issue calls in order; if a
call fails (the oracle says `false`), it is the last call issued — the
script has no handler, so nothing further runs. -/
def issue_calls (ok : EcrCall → Bool) : List EcrCall → List EcrCall
  | [] => []
  | c :: cs => if ok c then c :: issue_calls ok cs else [c]

/-- The whole run: for each repository, for each tagged image
(tag, manifest), the per-image calls in order. -/
def ecr_script_calls
    (repos : List (List Char × List (List Char × List Char))) : List EcrCall :=
  concatAll (repos.map (fun rp =>
    concatAll (rp.2.map (fun im => retag_calls rp.1 im.1 im.2))))

/-! ## Generic lemmas about the scanning primitives -/

theorem sp_here {p : List Char → Bool} {s : List Char} (h : p s = true) :
    splitAtFirstP p s = some ([], s) := by
  cases s with
  | nil => simp [splitAtFirstP, h]
  | cons c t => simp [splitAtFirstP, h]

theorem sp_none {p : List Char → Bool} :
    ∀ {s : List Char}, (∀ u, u <:+ s → p u = false) → splitAtFirstP p s = none
  | [], h => by simp [splitAtFirstP, h [] (List.nil_suffix)]
  | c :: t, h => by
    have hct : p (c :: t) = false := h (c :: t) (List.suffix_refl _)
    have ht : splitAtFirstP p t = none :=
      sp_none (fun u hu => h u (hu.trans (List.suffix_cons c t)))
    simp [splitAtFirstP, hct, ht]

theorem sp_split {p : List Char → Bool} {y : List Char} (hy : p y = true) :
    ∀ {x : List Char}, (∀ u, u <:+ x → u ≠ [] → p (u ++ y) = false) →
      splitAtFirstP p (x ++ y) = some (x, y)
  | [], _ => by simpa using sp_here hy
  | a :: x', h => by
    have hax : p (a :: (x' ++ y)) = false := by
      have := h (a :: x') (List.suffix_refl _) (by simp)
      simpa using this
    have ih : splitAtFirstP p (x' ++ y) = some (x', y) :=
      sp_split hy (fun u hu hne => h u (hu.trans (List.suffix_cons a x')) hne)
    simp [splitAtFirstP, hax, ih]

theorem isPrefixOf_false_of_not_pre {lit u : List Char} (h : ¬ lit <+: u) :
    lit.isPrefixOf u = false := by
  by_contra hb
  exact h (List.isPrefixOf_iff_prefix.mp (by revert hb; cases lit.isPrefixOf u <;> simp))

theorem infix_of_pre_of_suffix {lit u s : List Char} (hpre : lit <+: u)
    (hsuf : u <:+ s) : lit <:+: s :=
  List.IsInfix.trans hpre.isInfix hsuf.isInfix

theorem spLit_none {lit s : List Char} (h : ¬ lit <:+: s) :
    splitAtFirst lit s = none := by
  apply sp_none
  intro u hu
  apply isPrefixOf_false_of_not_pre
  exact fun hpre => h (infix_of_pre_of_suffix hpre hu)

theorem pre_append_cases :
    ∀ {l w y : List Char}, l <+: w ++ y →
      l <+: w ∨ ∃ y1, l = w ++ y1 ∧ y1 <+: y
  | [], _, _, _ => Or.inl (List.nil_prefix)
  | c :: l', [], _, h => Or.inr ⟨c :: l', by simp, by simpa using h⟩
  | c :: l', b :: w', y, h => by
    rw [List.cons_append, List.cons_prefix_cons] at h
    rcases h with ⟨rfl, h2⟩
    rcases pre_append_cases h2 with hL | ⟨y1, hy1, hy2⟩
    · exact Or.inl (List.cons_prefix_cons.mpr ⟨rfl, hL⟩)
    · exact Or.inr ⟨y1, by simp [hy1], hy2⟩

/-- Decomposing an infix of an append: it lies in the left part, in the
right part, or spans the junction. -/
theorem infix_append_cases {lit y : List Char} :
    ∀ {x : List Char}, lit <:+: (x ++ y) →
      lit <:+: x ∨ lit <:+: y ∨
        ∃ x1 y1, x1 ≠ [] ∧ y1 ≠ [] ∧ lit = x1 ++ y1 ∧ x1 <:+ x ∧ y1 <+: y
  | [], h => Or.inr (Or.inl (by simpa using h))
  | a :: x', h => by
    rw [List.cons_append, List.infix_cons_iff] at h
    rcases h with hpre | hinf
    · rcases @pre_append_cases lit (a :: x') y (by simpa using hpre) with
        hL | ⟨l', hsplit, hl'⟩
      · exact Or.inl hL.isInfix
      · by_cases hl : l' = []
        · subst hl
          simp only [List.append_nil] at hsplit
          exact Or.inl (hsplit ▸ List.infix_refl _)
        · exact Or.inr (Or.inr ⟨a :: x', l', by simp, hl, hsplit,
            List.suffix_refl _, hl'⟩)
    · rcases infix_append_cases hinf with hL | hR | ⟨x1, y1, h1, h2, h3, h4, h5⟩
      · exact Or.inl (hL.trans (List.suffix_cons a x').isInfix)
      · exact Or.inr (Or.inl hR)
      · exact Or.inr (Or.inr ⟨x1, y1, h1, h2, h3, h4.trans (List.suffix_cons a x'), h5⟩)

theorem scanSub_nil (try1 : List Char → Option (List Char × List Char)) :
    ∀ n, scanSub try1 n [] = []
  | 0 => rfl
  | _ + 1 => rfl

/-- A scan over text with no match at any position copies the text, for any
fuel. -/
theorem scanSub_id {try1 : List Char → Option (List Char × List Char)} :
    ∀ (n : Nat) {s : List Char}, (∀ u, u <:+ s → try1 u = none) →
      scanSub try1 n s = s
  | 0, _, _ => rfl
  | _ + 1, [], _ => rfl
  | n + 1, c :: t, h => by
    have hc : try1 (c :: t) = none := h (c :: t) (List.suffix_refl _)
    have ih : scanSub try1 n t = t :=
      scanSub_id n (fun u hu => h u (hu.trans (List.suffix_cons c t)))
    simp [scanSub, hc, ih]

theorem tryLit_none_of_not_inf {pat repl s u : List Char} (h : ¬ pat <:+: s)
    (hu : u <:+ s) : tryLit pat repl u = none := by
  unfold tryLit
  have : ¬ pat <+: u := fun hp => h (infix_of_pre_of_suffix hp hu)
  simp [isPrefixOf_false_of_not_pre this]

/-- `str.replace` on pattern-free text is the identity. -/
theorem replaceAll_id {pat repl s : List Char} (h : ¬ pat <:+: s) :
    replaceAll pat repl s = s :=
  scanSub_id _ (fun _ hu => tryLit_none_of_not_inf h hu)

/-- `str.replace` where the text is exactly one occurrence of the pattern
followed by pattern-free text. -/
theorem replaceAll_head {pat repl rest : List Char} (hne : pat ≠ [])
    (h : ¬ pat <:+: rest) :
    replaceAll pat repl (pat ++ rest) = repl ++ rest := by
  have htry : tryLit pat repl (pat ++ rest) = some (repl, rest) := by
    unfold tryLit
    simp [List.isPrefixOf_iff_prefix.mpr (List.prefix_append pat rest),
      List.drop_left]
  unfold replaceAll
  cases hp : (pat ++ rest : List Char) with
  | nil => exact absurd (List.append_eq_nil.mp hp).1 hne
  | cons c t =>
    rw [hp] at htry
    simp only [List.length_cons, scanSub, htry]
    congr 1
    exact scanSub_id _ (fun _ hu => tryLit_none_of_not_inf h hu)

/-- `str.replace` where the text is exactly the pattern. -/
theorem replaceAll_self {pat repl : List Char} (hne : pat ≠ []) :
    replaceAll pat repl pat = repl := by
  have h : ¬ pat <:+: ([] : List Char) := by
    intro hinf
    exact hne (List.eq_nil_of_infix_nil hinf)
  simpa using @replaceAll_head pat repl [] hne h

/-! ## Lemmas about the transform's structure -/

theorem no_span_left {lit x y : List Char}
    (hx : ∀ k, k < lit.length → 0 < k → ¬ (lit.take k <:+ x))
    (hlit : ¬ lit <:+: x) (hy : ¬ lit <:+: y) : ¬ lit <:+: (x ++ y) := by
  intro h
  rcases infix_append_cases h with h1 | h2 | ⟨x1, y1, hne1, hne2, heq, hsuf, hpre⟩
  · exact hlit h1
  · exact hy h2
  · have hk : x1 = lit.take x1.length := by rw [heq, List.take_left]
    have hlen : x1.length < lit.length := by
      rw [heq, List.length_append]
      have : 0 < y1.length := List.length_pos.mpr hne2
      omega
    exact hx x1.length hlen (List.length_pos.mpr hne1) (hk ▸ hsuf)

theorem no_span_right {lit x y : List Char}
    (hy' : ∀ k, k < lit.length → 0 < k → ¬ (lit.drop k <+: y))
    (hlit : ¬ lit <:+: x) (hy : ¬ lit <:+: y) : ¬ lit <:+: (x ++ y) := by
  intro h
  rcases infix_append_cases h with h1 | h2 | ⟨x1, y1, hne1, hne2, heq, hsuf, hpre⟩
  · exact hlit h1
  · exact hy h2
  · have hk : y1 = lit.drop x1.length := by rw [heq, List.drop_left]
    have hlen : x1.length < lit.length := by
      rw [heq, List.length_append]
      have : 0 < y1.length := List.length_pos.mpr hne2
      omega
    exact hy' x1.length hlen (List.length_pos.mpr hne1) (hk ▸ hpre)

theorem pystrip_inf (s : List Char) : pystrip s <:+: s := by
  have h1 : s.dropWhile isPySpace <:+ s := List.dropWhile_suffix _
  have h3 : List.dropWhile isPySpace (s.dropWhile isPySpace).reverse <:+
      (s.dropWhile isPySpace).reverse := List.dropWhile_suffix _
  have h4 := List.reverse_prefix.mpr h3
  rw [List.reverse_reverse] at h4
  exact h4.isInfix.trans h1.isInfix

theorem not_infix_pystrip {lit s : List Char} (h : ¬ lit <:+: s) :
    ¬ lit <:+: pystrip s :=
  fun hc => h (hc.trans (pystrip_inf s))

theorem searchSection_none {lit s : List Char} (h : ¬ lit <:+: s) :
    searchSection lit s = none := by
  unfold searchSection
  rw [spLit_none h]

theorem searchSection_head {lit body : List Char} (hlit : lit ≠ [])
    (hbody : ¬ ("\n##").toList <:+: body) :
    searchSection lit (lit ++ body) = some body := by
  unfold searchSection
  rw [show splitAtFirst lit (lit ++ body) = some ([], lit ++ body) from
    sp_here (List.isPrefixOf_iff_prefix.mpr (List.prefix_append lit body))]
  simp only [List.drop_left]
  rw [spLit_none hbody]

theorem styleBestPractices_id {s : List Char} (h : ¬ bpLit <:+: s) :
    styleBestPractices s = s := by
  unfold styleBestPractices
  rw [searchSection_none h]

theorem styleImplementation_id {s : List Char} (h : ¬ implLit <:+: s) :
    styleImplementation s = s := by
  unfold styleImplementation
  rw [searchSection_none h]

theorem styleServices_id {s : List Char} (h : ¬ servLit <:+: s) :
    styleServices s = s := by
  unfold styleServices
  rw [searchSection_none h]

theorem styleResources_id {s : List Char} (h : ¬ resLit <:+: s) :
    styleResources s = s := by
  unfold styleResources
  rw [searchSection_none h]

theorem convert_id_of_no_front_matter {c : List Char}
    (h : matchFrontMatter c = none) : convert_to_styled_format c = c := by
  unfold convert_to_styled_format
  rw [h]

theorem convert_id_of_no_title {c fm rest : List Char}
    (hfm : matchFrontMatter c = some (fm, rest))
    (ht : findFirstMatch tryTitleAt rest = none) :
    convert_to_styled_format c = c := by
  unfold convert_to_styled_format
  simp only [hfm, ht]

theorem convert_eq_of_parts {c fm rest tpre qid ttl pre matched g1 after : List Char}
    (hfm : matchFrontMatter c = some (fm, rest))
    (ht : findFirstMatch tryTitleAt rest = some (tpre, qid, ttl))
    (hd : findFirstMatch tryDescAt rest = some (pre, matched, g1, after))
    (hne : pre ++ after ≠ []) :
    convert_to_styled_format c =
      fm ++ pillarHeader qid ttl g1 ++
        styleResources (styleServices (styleImplementation
          (styleBestPractices (pre ++ after)))) := by
  unfold convert_to_styled_format
  simp only [hfm, ht, hd]
  have hie : (pre ++ after).isEmpty = false := by
    cases h : (pre ++ after : List Char) with
    | nil => exact absurd h hne
    | cons a t => rfl
  simp only [hie, Bool.false_eq_true, if_false]

/-! ## Claim theorems: identity cases (C3) -/

/-- C3: `convert_to_styled_format` returns its input unchanged both when the
input does not begin with a complete front-matter marker block (the anchored
front-matter regex fails) and when a front-matter block is present but no
heading matching `# <ID>: <Title>` occurs in the remaining text. -/
theorem convert_identity_cases (c : List Char) :
    (matchFrontMatter c = none → convert_to_styled_format c = c) ∧
    (∀ fm rest, matchFrontMatter c = some (fm, rest) →
      findFirstMatch tryTitleAt rest = none → convert_to_styled_format c = c) :=
  ⟨fun h => convert_id_of_no_front_matter h,
   fun _ _ hfm ht => convert_id_of_no_title hfm ht⟩

/-- Witness for C3 at two concrete documents, one per identity case. -/
theorem convert_identity_cases_witness :
    convert_to_styled_format ("no front matter here").toList =
      ("no front matter here").toList ∧
    convert_to_styled_format ("---\na: b\n---\nno heading\n\ntext\n").toList =
      ("---\na: b\n---\nno heading\n\ntext\n").toList :=
  ⟨(convert_identity_cases _).1 (by decide),
   (convert_identity_cases _).2 ("---\na: b\n---\n").toList
     ("no heading\n\ntext\n").toList (by decide) (by decide)⟩

/-! ## Claim theorems: end-to-end example (C4) -/

/-- The C4 input document. -/
def c4doc : List Char :=
  ("---\ntitle: x\nlayout: default\n---\n# SEC01: Title\n\nDesc para\n\n## Best Practices\n\n### Sub\nBody text\n").toList

/-- C4: on a document with front matter, heading `# SEC01: Title`, one
description paragraph, and a `## Best Practices` section with a single
`### Sub` heading and body, the output contains the `pillar-header` block
with that title and description, and exactly one `best-practice` wrapper,
whose `h4` heading is `Sub`. -/
theorem convert_c4_end_to_end :
    convert_to_styled_format c4doc =
      ("---\ntitle: x\nlayout: default\n---\n<div class=\"pillar-header\">\n  <h1>SEC01: Title</h1>\n  <p>Desc para</p>\n</div>\n\n## Best Practices\n\n<div class=\"best-practice\">\n  <h4>Sub</h4>\n  <p>Body text</p>\n</div>\n\n").toList ∧
    ("<div class=\"pillar-header\">\n  <h1>SEC01: Title</h1>\n  <p>Desc para</p>\n</div>").toList
      <:+: convert_to_styled_format c4doc ∧
    countOcc ("<div class=\"best-practice\">").toList
      (convert_to_styled_format c4doc).length (convert_to_styled_format c4doc) = 1 ∧
    ("<h4>Sub</h4>").toList <:+: convert_to_styled_format c4doc := by
  decide

/-! ## Claim theorems: idempotence (C2) -/

/-- A document whose body still contains a second `# <ID>: <Title>` heading
after the first run, so the second run transforms again. -/
def c2doc : List Char :=
  ("---\nfm: x\n---\n# SEC01: T\n\npara\n\n# SEC02: U\n\npara2\n\n## Best Practices\n\nbody\n\n").toList

/-- C2 counterexample: running the transform twice on `c2doc` wraps the
already-wrapped `## Best Practices` section a second time, so the second
output differs from the first — the transform is not idempotent on the four
known section types. -/
theorem convert_not_idempotent :
    countOcc ("<div class=\"best-practice\">").toList
      (convert_to_styled_format c2doc).length (convert_to_styled_format c2doc) = 1 ∧
    countOcc ("<div class=\"best-practice\">").toList
      (convert_to_styled_format (convert_to_styled_format c2doc)).length
      (convert_to_styled_format (convert_to_styled_format c2doc)) = 2 ∧
    convert_to_styled_format (convert_to_styled_format c2doc) ≠
      convert_to_styled_format c2doc := by
  decide

/-- C2 amended: a second run leaves the first run's output unchanged
whenever that output contains no `# <ID>: <Title>` heading after its front
matter (the usual case: the first run replaces the only such heading); in
general the transform is not idempotent. -/
theorem convert_idempotent_of_no_surviving_heading {c fm rest : List Char}
    (hfm : matchFrontMatter (convert_to_styled_format c) = some (fm, rest))
    (ht : findFirstMatch tryTitleAt rest = none) :
    convert_to_styled_format (convert_to_styled_format c) =
      convert_to_styled_format c :=
  convert_id_of_no_title hfm ht

/-- Witness for the amended C2 at a concrete document. -/
theorem convert_idempotent_of_no_surviving_heading_witness :
    convert_to_styled_format (convert_to_styled_format
      ("---\na: b\n---\n# SEC03: W\n\nWords here.\n\n").toList) =
      convert_to_styled_format ("---\na: b\n---\n# SEC03: W\n\nWords here.\n\n").toList :=
  @convert_idempotent_of_no_surviving_heading
    ("---\na: b\n---\n# SEC03: W\n\nWords here.\n\n").toList
    ("---\na: b\n---\n").toList
    ("<div class=\"pillar-header\">\n  <h1>SEC03: W</h1>\n  <p>Words here.</p>\n</div>\n\nWords here.\n\n").toList
    (by decide) (by decide)

/-! ## Claim theorems: fallback wrapping of unstructured section bodies (C1) -/

/-- A document with front matter, heading, description, and a single
section given by its heading literal `sect` and body `b`. -/
def fallbackDoc (sect b : List Char) : List Char :=
  ("---\nk: v\n---\n# SEC01: T\n\nDesc.\n\n").toList ++ (sect ++ b)

/-- The front-matter plus `pillar-header` prefix every `fallbackDoc`
transform output starts with. -/
def fallbackOutHead : List Char :=
  ("---\nk: v\n---\n<div class=\"pillar-header\">\n  <h1>SEC01: T</h1>\n  <p>Desc.</p>\n</div>\n\n").toList

lemma fallbackDoc_parts (sect b : List Char) :
    matchFrontMatter (fallbackDoc sect b) =
      some (("---\nk: v\n---\n").toList,
        ("# SEC01: T\n\nDesc.\n\n").toList ++ (sect ++ b)) ∧
    findFirstMatch tryTitleAt (("# SEC01: T\n\nDesc.\n\n").toList ++ (sect ++ b)) =
      some ([], ("SEC01").toList, ("T").toList) ∧
    findFirstMatch tryDescAt (("# SEC01: T\n\nDesc.\n\n").toList ++ (sect ++ b)) =
      some ([], ("# SEC01: T\n\nDesc.\n\n").toList, ("Desc.").toList, sect ++ b) := by
  refine ⟨?_, ?_, ?_⟩
  · simp [fallbackDoc, matchFrontMatter, dropLit, splitAtFirst, splitAtFirstP,
      List.isPrefixOf]
  · simp [findFirstMatch, tryTitleAt, dropLit, splitAtFirst, splitAtFirstP,
      List.isPrefixOf, List.takeWhile, isUpperAZ, isDigit09]
  · simp [findFirstMatch, tryDescAt, dropLit, splitAtFirst, splitAtFirstP,
      List.isPrefixOf, List.takeWhile, isUpperAZ, isDigit09]

lemma fallbackDoc_pipeline (sect b : List Char) (hne : sect ++ b ≠ []) :
    convert_to_styled_format (fallbackDoc sect b) =
      ("---\nk: v\n---\n").toList ++
        pillarHeader ("SEC01").toList ("T").toList ("Desc.").toList ++
        styleResources (styleServices (styleImplementation
          (styleBestPractices (sect ++ b)))) := by
  obtain ⟨hfm, ht, hd⟩ := fallbackDoc_parts sect b
  rw [convert_eq_of_parts hfm ht hd (by simpa using hne)]
  simp only [List.nil_append]

lemma c1_bp_case (b : List Char)
    (hnn : ¬ ("\n##").toList <:+: b)
    (hp : findallPractices b = [])
    (himpl : ¬ implLit <:+: b)
    (hserv : ¬ servLit <:+: b)
    (hres : ¬ resLit <:+: b) :
    convert_to_styled_format (fallbackDoc bpLit b) =
      fallbackOutHead ++
        (("## Best Practices\n\n<div class=\"best-practice\">\n  <h4>Best Practice</h4>\n  <p>").toList ++
          (pystrip b ++ ("</p>\n</div>\n\n").toList)) := by
  rw [fallbackDoc_pipeline bpLit b (by simp [bpLit])]
  have hsec : styleBestPractices (bpLit ++ b) =
      ("## Best Practices\n\n<div class=\"best-practice\">\n  <h4>Best Practice</h4>\n  <p>").toList ++
        (pystrip b ++ ("</p>\n</div>\n\n").toList) := by
    have h1 : styleBestPractices (bpLit ++ b) =
        replaceAll (bpLit ++ b) (styleBPBody b) (bpLit ++ b) := by
      unfold styleBestPractices
      rw [searchSection_head (by decide) hnn]
    rw [h1, replaceAll_self (by simp [bpLit])]
    unfold styleBPBody
    rw [hp]
    simp [bpWrap, bpLit]
  rw [hsec]
  have himplid : styleImplementation
      (("## Best Practices\n\n<div class=\"best-practice\">\n  <h4>Best Practice</h4>\n  <p>").toList ++
        (pystrip b ++ ("</p>\n</div>\n\n").toList)) =
      ("## Best Practices\n\n<div class=\"best-practice\">\n  <h4>Best Practice</h4>\n  <p>").toList ++
        (pystrip b ++ ("</p>\n</div>\n\n").toList) :=
    styleImplementation_id (no_span_left (by decide) (by decide)
      (no_span_right (by decide) (not_infix_pystrip himpl) (by decide)))
  rw [himplid]
  have hservid : styleServices
      (("## Best Practices\n\n<div class=\"best-practice\">\n  <h4>Best Practice</h4>\n  <p>").toList ++
        (pystrip b ++ ("</p>\n</div>\n\n").toList)) =
      ("## Best Practices\n\n<div class=\"best-practice\">\n  <h4>Best Practice</h4>\n  <p>").toList ++
        (pystrip b ++ ("</p>\n</div>\n\n").toList) :=
    styleServices_id (no_span_left (by decide) (by decide)
      (no_span_right (by decide) (not_infix_pystrip hserv) (by decide)))
  rw [hservid]
  have hresid : styleResources
      (("## Best Practices\n\n<div class=\"best-practice\">\n  <h4>Best Practice</h4>\n  <p>").toList ++
        (pystrip b ++ ("</p>\n</div>\n\n").toList)) =
      ("## Best Practices\n\n<div class=\"best-practice\">\n  <h4>Best Practice</h4>\n  <p>").toList ++
        (pystrip b ++ ("</p>\n</div>\n\n").toList) :=
    styleResources_id (no_span_left (by decide) (by decide)
      (no_span_right (by decide) (not_infix_pystrip hres) (by decide)))
  rw [hresid]
  simp [pillarHeader, fallbackOutHead]

lemma c1_impl_case (b : List Char)
    (hnn : ¬ ("\n##").toList <:+: b)
    (hs1 : findallSteps1 b = [])
    (hs2 : findallSteps2 b = [])
    (hbp : ¬ bpLit <:+: b)
    (hserv : ¬ servLit <:+: b)
    (hres : ¬ resLit <:+: b) :
    convert_to_styled_format (fallbackDoc implLit b) =
      fallbackOutHead ++
        (("## Implementation Guidance\n\n<div class=\"implementation-step\">\n  <h4>Implementation Guidance</h4>\n  <p>").toList ++
          (pystrip b ++ ("</p>\n</div>\n\n").toList)) := by
  rw [fallbackDoc_pipeline implLit b (by simp [implLit])]
  have hbpid : styleBestPractices (implLit ++ b) = implLit ++ b :=
    styleBestPractices_id (no_span_left (by decide) (by decide) hbp)
  rw [hbpid]
  have hsec : styleImplementation (implLit ++ b) =
      ("## Implementation Guidance\n\n<div class=\"implementation-step\">\n  <h4>Implementation Guidance</h4>\n  <p>").toList ++
        (pystrip b ++ ("</p>\n</div>\n\n").toList) := by
    have h1 : styleImplementation (implLit ++ b) =
        replaceAll (implLit ++ b) (styleImplBody b) (implLit ++ b) := by
      unfold styleImplementation
      rw [searchSection_head (by decide) hnn]
    rw [h1, replaceAll_self (by simp [implLit])]
    unfold styleImplBody
    rw [hs1, hs2]
    simp [implWrap, implLit]
  rw [hsec]
  have hservid : styleServices
      (("## Implementation Guidance\n\n<div class=\"implementation-step\">\n  <h4>Implementation Guidance</h4>\n  <p>").toList ++
        (pystrip b ++ ("</p>\n</div>\n\n").toList)) =
      ("## Implementation Guidance\n\n<div class=\"implementation-step\">\n  <h4>Implementation Guidance</h4>\n  <p>").toList ++
        (pystrip b ++ ("</p>\n</div>\n\n").toList) :=
    styleServices_id (no_span_left (by decide) (by decide)
      (no_span_right (by decide) (not_infix_pystrip hserv) (by decide)))
  rw [hservid]
  have hresid : styleResources
      (("## Implementation Guidance\n\n<div class=\"implementation-step\">\n  <h4>Implementation Guidance</h4>\n  <p>").toList ++
        (pystrip b ++ ("</p>\n</div>\n\n").toList)) =
      ("## Implementation Guidance\n\n<div class=\"implementation-step\">\n  <h4>Implementation Guidance</h4>\n  <p>").toList ++
        (pystrip b ++ ("</p>\n</div>\n\n").toList) :=
    styleResources_id (no_span_left (by decide) (by decide)
      (no_span_right (by decide) (not_infix_pystrip hres) (by decide)))
  rw [hresid]
  simp [pillarHeader, fallbackOutHead]

lemma c1_serv_case (b : List Char)
    (hnn : ¬ ("\n##").toList <:+: b)
    (hv1 : findallServices1 b = [])
    (hv2 : findallDashItems b = [])
    (hbp : ¬ bpLit <:+: b)
    (himpl : ¬ implLit <:+: b) :
    convert_to_styled_format (fallbackDoc servLit b) =
      fallbackOutHead ++
        ("## AWS Services to Consider\n\n<div class=\"aws-service\">\n  <div class=\"aws-service-content\">\n    <h4>AWS Services</h4>\n    <p>Add relevant AWS services for this question.</p>\n  </div>\n</div>\n\n").toList := by
  rw [fallbackDoc_pipeline servLit b (by simp [servLit])]
  have hbpid : styleBestPractices (servLit ++ b) = servLit ++ b :=
    styleBestPractices_id (no_span_left (by decide) (by decide) hbp)
  rw [hbpid]
  have himplid : styleImplementation (servLit ++ b) = servLit ++ b :=
    styleImplementation_id (no_span_left (by decide) (by decide) himpl)
  rw [himplid]
  have hsec : styleServices (servLit ++ b) =
      ("## AWS Services to Consider\n\n<div class=\"aws-service\">\n  <div class=\"aws-service-content\">\n    <h4>AWS Services</h4>\n    <p>Add relevant AWS services for this question.</p>\n  </div>\n</div>\n\n").toList := by
    have h1 : styleServices (servLit ++ b) =
        replaceAll (servLit ++ b) (styleServBody b) (servLit ++ b) := by
      unfold styleServices
      rw [searchSection_head (by decide) hnn]
    rw [h1, replaceAll_self (by simp [servLit])]
    unfold styleServBody
    rw [hv1, hv2]
    simp [servWrap, servLit]
  rw [hsec]
  rw [styleResources_id (by decide)]
  simp [pillarHeader, fallbackOutHead]

lemma c1_res_case (b : List Char)
    (hnn : ¬ ("\n##").toList <:+: b)
    (hr1 : findallResources1 b = [])
    (hr2 : findallDashItems b = [])
    (hbp : ¬ bpLit <:+: b)
    (himpl : ¬ implLit <:+: b)
    (hserv : ¬ servLit <:+: b) :
    convert_to_styled_format (fallbackDoc resLit b) =
      fallbackOutHead ++
        ("<div class=\"related-resources\">\n  <h2>Related Resources</h2>\n  <ul>\n    <li>Add related resources for this question.</li>\n  </ul>\n</div>").toList := by
  rw [fallbackDoc_pipeline resLit b (by simp [resLit])]
  have hbpid : styleBestPractices (resLit ++ b) = resLit ++ b :=
    styleBestPractices_id (no_span_left (by decide) (by decide) hbp)
  rw [hbpid]
  have himplid : styleImplementation (resLit ++ b) = resLit ++ b :=
    styleImplementation_id (no_span_left (by decide) (by decide) himpl)
  rw [himplid]
  have hservid : styleServices (resLit ++ b) = resLit ++ b :=
    styleServices_id (no_span_left (by decide) (by decide) hserv)
  rw [hservid]
  have hsec : styleResources (resLit ++ b) =
      ("<div class=\"related-resources\">\n  <h2>Related Resources</h2>\n  <ul>\n    <li>Add related resources for this question.</li>\n  </ul>\n</div>").toList := by
    have h1 : styleResources (resLit ++ b) =
        replaceAll (resLit ++ b) (styleResBody b) (resLit ++ b) := by
      unfold styleResources
      rw [searchSection_head (by decide) hnn]
    rw [h1, replaceAll_self (by simp [resLit])]
    unfold styleResBody
    rw [hr1, hr2]
    simp [resLit]
  rw [hsec]
  simp [pillarHeader, fallbackOutHead]

/-- The C1 counterexample document: an `AWS Services to Consider` section
whose body matches none of the sub-item patterns. -/
def c1cexDoc : List Char :=
  ("---\nk: v\n---\n# SEC05: T\n\nD.\n\n## AWS Services to Consider\n\nJust a sentence.\n").toList

/-- C1 counterexample: for an `AWS Services to Consider` section with an
unstructured body, the transform emits a fixed placeholder sub-item and
drops the body — the body text is not preserved inside a wrapper, refuting
the claim for this section type. -/
theorem convert_fallback_drops_services_body :
    convert_to_styled_format c1cexDoc =
      ("---\nk: v\n---\n<div class=\"pillar-header\">\n  <h1>SEC05: T</h1>\n  <p>D.</p>\n</div>\n\n## AWS Services to Consider\n\n<div class=\"aws-service\">\n  <div class=\"aws-service-content\">\n    <h4>AWS Services</h4>\n    <p>Add relevant AWS services for this question.</p>\n  </div>\n</div>\n\n").toList ∧
    ¬ ("Just a sentence.").toList <:+: convert_to_styled_format c1cexDoc := by
  decide

/-- C1 amended: in a document whose single section has an unstructured body
`b` (no recognized sub-item pattern matches, and `b` contains no further
section boundary or section heading), the fallback behaviour is: for
`Best Practices` and `Implementation Guidance` the whole body is wrapped,
stripped of surrounding whitespace, as exactly one generic sub-item; for
`AWS Services to Consider` and `Related Resources` a fixed placeholder
sub-item is emitted and the body is dropped. -/
theorem convert_fallback_wrapping (b : List Char) :
    (¬ ("\n##").toList <:+: b → findallPractices b = [] →
      ¬ implLit <:+: b → ¬ servLit <:+: b → ¬ resLit <:+: b →
      convert_to_styled_format (fallbackDoc bpLit b) =
        fallbackOutHead ++
          (("## Best Practices\n\n<div class=\"best-practice\">\n  <h4>Best Practice</h4>\n  <p>").toList ++
            (pystrip b ++ ("</p>\n</div>\n\n").toList))) ∧
    (¬ ("\n##").toList <:+: b → findallSteps1 b = [] → findallSteps2 b = [] →
      ¬ bpLit <:+: b → ¬ servLit <:+: b → ¬ resLit <:+: b →
      convert_to_styled_format (fallbackDoc implLit b) =
        fallbackOutHead ++
          (("## Implementation Guidance\n\n<div class=\"implementation-step\">\n  <h4>Implementation Guidance</h4>\n  <p>").toList ++
            (pystrip b ++ ("</p>\n</div>\n\n").toList))) ∧
    (¬ ("\n##").toList <:+: b → findallServices1 b = [] → findallDashItems b = [] →
      ¬ bpLit <:+: b → ¬ implLit <:+: b →
      convert_to_styled_format (fallbackDoc servLit b) =
        fallbackOutHead ++
          ("## AWS Services to Consider\n\n<div class=\"aws-service\">\n  <div class=\"aws-service-content\">\n    <h4>AWS Services</h4>\n    <p>Add relevant AWS services for this question.</p>\n  </div>\n</div>\n\n").toList) ∧
    (¬ ("\n##").toList <:+: b → findallResources1 b = [] → findallDashItems b = [] →
      ¬ bpLit <:+: b → ¬ implLit <:+: b → ¬ servLit <:+: b →
      convert_to_styled_format (fallbackDoc resLit b) =
        fallbackOutHead ++
          ("<div class=\"related-resources\">\n  <h2>Related Resources</h2>\n  <ul>\n    <li>Add related resources for this question.</li>\n  </ul>\n</div>").toList) :=
  ⟨fun h1 h2 h3 h4 h5 => c1_bp_case b h1 h2 h3 h4 h5,
   fun h1 h2 h3 h4 h5 h6 => c1_impl_case b h1 h2 h3 h4 h5 h6,
   fun h1 h2 h3 h4 h5 => c1_serv_case b h1 h2 h3 h4 h5,
   fun h1 h2 h3 h4 h5 h6 => c1_res_case b h1 h2 h3 h4 h5 h6⟩

/-- Witness for the amended C1 at the concrete body `Plain text.\n`. -/
theorem convert_fallback_wrapping_witness :
    convert_to_styled_format (fallbackDoc bpLit ("Plain text.\n").toList) =
      fallbackOutHead ++
        (("## Best Practices\n\n<div class=\"best-practice\">\n  <h4>Best Practice</h4>\n  <p>").toList ++
          (pystrip ("Plain text.\n").toList ++ ("</p>\n</div>\n\n").toList)) ∧
    convert_to_styled_format (fallbackDoc implLit ("Plain text.\n").toList) =
      fallbackOutHead ++
        (("## Implementation Guidance\n\n<div class=\"implementation-step\">\n  <h4>Implementation Guidance</h4>\n  <p>").toList ++
          (pystrip ("Plain text.\n").toList ++ ("</p>\n</div>\n\n").toList)) ∧
    convert_to_styled_format (fallbackDoc servLit ("Plain text.\n").toList) =
      fallbackOutHead ++
        ("## AWS Services to Consider\n\n<div class=\"aws-service\">\n  <div class=\"aws-service-content\">\n    <h4>AWS Services</h4>\n    <p>Add relevant AWS services for this question.</p>\n  </div>\n</div>\n\n").toList ∧
    convert_to_styled_format (fallbackDoc resLit ("Plain text.\n").toList) =
      fallbackOutHead ++
        ("<div class=\"related-resources\">\n  <h2>Related Resources</h2>\n  <ul>\n    <li>Add related resources for this question.</li>\n  </ul>\n</div>").toList :=
  ⟨(convert_fallback_wrapping _).1 (by decide) (by decide) (by decide) (by decide)
     (by decide),
   (convert_fallback_wrapping _).2.1 (by decide) (by decide) (by decide) (by decide)
     (by decide) (by decide),
   (convert_fallback_wrapping _).2.2.1 (by decide) (by decide) (by decide) (by decide)
     (by decide),
   (convert_fallback_wrapping _).2.2.2 (by decide) (by decide) (by decide) (by decide)
     (by decide) (by decide)⟩

/-! ## Claim theorems: unrecognized sections (C6) -/

theorem not_infix_extend {lit t u : List Char} (h : ¬ lit <:+: u) :
    ¬ (lit ++ t) <:+: u :=
  fun hc => h ((List.prefix_append lit t).isInfix.trans hc)

/-- The C6 counterexample document: front matter and a matching heading
directly followed by an unrecognized section, with no description
paragraph in between. -/
def c6cexDoc : List Char :=
  ("---\na: b\n---\n# SEC01: T\n\n## Custom\n\nbody\n\n").toList

/-- C6 counterexample: the description regex swallows the `## Custom`
heading as the description, so the unrecognized section does not appear
byte-for-byte in the output — its heading ends up inside the
`pillar-header` paragraph and its body is orphaned. -/
theorem convert_mangles_unknown_section :
    convert_to_styled_format c6cexDoc =
      ("---\na: b\n---\n<div class=\"pillar-header\">\n  <h1>SEC01: T</h1>\n  <p>## Custom</p>\n</div>\n\nbody\n\n").toList ∧
    ¬ ("## Custom\n\nbody").toList <:+: convert_to_styled_format c6cexDoc := by
  decide

/-- The document prefix for the amended C6: front matter, heading, a
description paragraph, and one recognized section before the unrecognized
one. -/
def c6head : List Char :=
  ("---\nk: v\n---\n# SEC01: T\n\nDesc.\n\n## Best Practices\n\nGood practice.\n\n").toList

/-- The output prefix produced for `c6head`. -/
def c6outHead : List Char :=
  ("---\nk: v\n---\n<div class=\"pillar-header\">\n  <h1>SEC01: T</h1>\n  <p>Desc.</p>\n</div>\n\n## Best Practices\n\n<div class=\"best-practice\">\n  <h4>Best Practice</h4>\n  <p>Good practice.</p>\n</div>\n\n\n").toList

/-- C6 amended: when a description paragraph terminated by a blank line
separates the heading from the sections, and the unrecognized trailing
section contains no recognized section heading text, the unrecognized
section appears in the output byte-for-byte. -/
theorem convert_preserves_unknown_section (u : List Char)
    (hbp : ¬ bpLit <:+: u) (himpl : ¬ implLit <:+: u)
    (hserv : ¬ servLit <:+: u) (hres : ¬ resLit <:+: u) :
    convert_to_styled_format (c6head ++ (("## Custom\n\n").toList ++ u)) =
      c6outHead ++ (("## Custom\n\n").toList ++ u) := by
  have hfm : matchFrontMatter (c6head ++ (("## Custom\n\n").toList ++ u)) =
      some (("---\nk: v\n---\n").toList,
        ("# SEC01: T\n\nDesc.\n\n## Best Practices\n\nGood practice.\n\n## Custom\n\n").toList ++ u) := by
    simp [c6head, matchFrontMatter, dropLit, splitAtFirst, splitAtFirstP,
      List.isPrefixOf]
  have ht : findFirstMatch tryTitleAt
      (("# SEC01: T\n\nDesc.\n\n## Best Practices\n\nGood practice.\n\n## Custom\n\n").toList ++ u) =
      some ([], ("SEC01").toList, ("T").toList) := by
    simp [findFirstMatch, tryTitleAt, dropLit, splitAtFirst, splitAtFirstP,
      List.isPrefixOf, List.takeWhile, isUpperAZ, isDigit09]
  have hd : findFirstMatch tryDescAt
      (("# SEC01: T\n\nDesc.\n\n## Best Practices\n\nGood practice.\n\n## Custom\n\n").toList ++ u) =
      some ([], ("# SEC01: T\n\nDesc.\n\n").toList, ("Desc.").toList,
        ("## Best Practices\n\nGood practice.\n\n## Custom\n\n").toList ++ u) := by
    simp [findFirstMatch, tryDescAt, dropLit, splitAtFirst, splitAtFirstP,
      List.isPrefixOf, List.takeWhile, isUpperAZ, isDigit09]
  rw [convert_eq_of_parts hfm ht hd (by simp)]
  simp only [List.nil_append]
  have hshape : ("## Best Practices\n\nGood practice.\n\n## Custom\n\n").toList ++ u =
      ("## Best Practices\n\nGood practice.\n").toList ++
        (("\n## Custom\n\n").toList ++ u) := by
    simp
  rw [hshape]
  have hsec : searchSection bpLit
      (("## Best Practices\n\nGood practice.\n").toList ++ (("\n## Custom\n\n").toList ++ u)) =
      some ("Good practice.\n").toList := by
    simp [searchSection, bpLit, splitAtFirst, splitAtFirstP, List.isPrefixOf]
  have hbpstep : styleBestPractices
      (("## Best Practices\n\nGood practice.\n").toList ++ (("\n## Custom\n\n").toList ++ u)) =
      ("## Best Practices\n\n<div class=\"best-practice\">\n  <h4>Best Practice</h4>\n  <p>Good practice.</p>\n</div>\n\n").toList ++
        (("\n## Custom\n\n").toList ++ u) := by
    have h1 : styleBestPractices
        (("## Best Practices\n\nGood practice.\n").toList ++ (("\n## Custom\n\n").toList ++ u)) =
        replaceAll (bpLit ++ ("Good practice.\n").toList)
          (styleBPBody ("Good practice.\n").toList)
          (("## Best Practices\n\nGood practice.\n").toList ++ (("\n## Custom\n\n").toList ++ u)) := by
      unfold styleBestPractices
      rw [hsec]
    rw [h1]
    have h2 : (("## Best Practices\n\nGood practice.\n").toList : List Char) ++
        (("\n## Custom\n\n").toList ++ u) =
        (bpLit ++ ("Good practice.\n").toList) ++ (("\n## Custom\n\n").toList ++ u) := by
      simp [bpLit]
    rw [h2]
    rw [replaceAll_head (by simp [bpLit])
      (no_span_left (by decide) (by decide) (not_infix_extend hbp))]
    have h3 : styleBPBody ("Good practice.\n").toList =
        ("## Best Practices\n\n<div class=\"best-practice\">\n  <h4>Best Practice</h4>\n  <p>Good practice.</p>\n</div>\n\n").toList := by
      decide
    rw [h3]
  rw [hbpstep]
  have himplid : styleImplementation
      (("## Best Practices\n\n<div class=\"best-practice\">\n  <h4>Best Practice</h4>\n  <p>Good practice.</p>\n</div>\n\n").toList ++
        (("\n## Custom\n\n").toList ++ u)) =
      ("## Best Practices\n\n<div class=\"best-practice\">\n  <h4>Best Practice</h4>\n  <p>Good practice.</p>\n</div>\n\n").toList ++
        (("\n## Custom\n\n").toList ++ u) :=
    styleImplementation_id (no_span_left (by decide) (by decide)
      (no_span_left (by decide) (by decide) himpl))
  rw [himplid]
  have hservid : styleServices
      (("## Best Practices\n\n<div class=\"best-practice\">\n  <h4>Best Practice</h4>\n  <p>Good practice.</p>\n</div>\n\n").toList ++
        (("\n## Custom\n\n").toList ++ u)) =
      ("## Best Practices\n\n<div class=\"best-practice\">\n  <h4>Best Practice</h4>\n  <p>Good practice.</p>\n</div>\n\n").toList ++
        (("\n## Custom\n\n").toList ++ u) :=
    styleServices_id (no_span_left (by decide) (by decide)
      (no_span_left (by decide) (by decide) hserv))
  rw [hservid]
  have hresid : styleResources
      (("## Best Practices\n\n<div class=\"best-practice\">\n  <h4>Best Practice</h4>\n  <p>Good practice.</p>\n</div>\n\n").toList ++
        (("\n## Custom\n\n").toList ++ u)) =
      ("## Best Practices\n\n<div class=\"best-practice\">\n  <h4>Best Practice</h4>\n  <p>Good practice.</p>\n</div>\n\n").toList ++
        (("\n## Custom\n\n").toList ++ u) :=
    styleResources_id (no_span_left (by decide) (by decide)
      (no_span_left (by decide) (by decide) hres))
  rw [hresid]
  simp [pillarHeader, c6outHead]

/-- Witness for the amended C6 at the concrete body `Some custom body.\n`. -/
theorem convert_preserves_unknown_section_witness :
    convert_to_styled_format
        (c6head ++ (("## Custom\n\n").toList ++ ("Some custom body.\n").toList)) =
      c6outHead ++ (("## Custom\n\n").toList ++ ("Some custom body.\n").toList) :=
  convert_preserves_unknown_section ("Some custom body.\n").toList
    (by decide) (by decide) (by decide) (by decide)

/-! ## Further generic lemmas: fuel, suffixes, takeWhile -/

theorem scanSub_fuel {try1 : List Char → Option (List Char × List Char)}
    (hs : ∀ s r rem, try1 s = some (r, rem) → rem.length < s.length) :
    ∀ (n : Nat) (s : List Char), s.length ≤ n →
      scanSub try1 n s = scanSub try1 s.length s := by
  intro n
  induction n using Nat.strong_induction_on with
  | _ n ih =>
    intro s hn
    match n, s with
    | 0, s =>
      have : s = [] := List.length_eq_zero.mp (Nat.le_zero.mp hn)
      subst this
      rfl
    | m + 1, [] => rfl
    | m + 1, c :: t =>
      have htm : t.length ≤ m := by
        have := hn
        simp only [List.length_cons] at this
        omega
      cases h : try1 (c :: t) with
      | some pr =>
        obtain ⟨r, rem⟩ := pr
        have hrem : rem.length < t.length + 1 := hs _ _ _ h
        simp only [List.length_cons, scanSub, h]
        have h1 : scanSub try1 m rem = scanSub try1 rem.length rem :=
          ih m (by omega) rem (by omega)
        have h2 : scanSub try1 t.length rem = scanSub try1 rem.length rem :=
          ih t.length (by omega) rem (by omega)
        rw [h1, h2]
      | none =>
        simp only [List.length_cons, scanSub, h]
        have h1 : scanSub try1 m t = scanSub try1 t.length t :=
          ih m (by omega) t htm
        rw [h1]

theorem scanSub_append {try1 : List Char → Option (List Char × List Char)}
    (hs : ∀ s r rem, try1 s = some (r, rem) → rem.length < s.length)
    {lit b repl : List Char}
    (hmatch : try1 (lit ++ b) = some (repl, b)) (hlit : lit ≠ []) :
    ∀ {a : List Char},
      (∀ a1, a1 <:+ a → a1 ≠ [] → try1 (a1 ++ (lit ++ b)) = none) →
      scanSub try1 (a ++ (lit ++ b)).length (a ++ (lit ++ b)) =
        a ++ (repl ++ scanSub try1 b.length b)
  | [], _ => by
    cases hl : (lit ++ b : List Char) with
    | nil => exact absurd (List.append_eq_nil.mp hl).1 hlit
    | cons c t =>
      rw [hl] at hmatch
      simp only [List.nil_append, List.length_cons, scanSub, hmatch]
      have hb : b.length ≤ t.length := by
        have := congrArg List.length hl
        simp only [List.length_append, List.length_cons] at this
        have : 0 < lit.length := List.length_pos.mpr hlit
        omega
      rw [scanSub_fuel hs t.length b hb]
  | c :: a', h => by
    have hc : try1 (c :: (a' ++ (lit ++ b))) = none := by
      have := h (c :: a') (List.suffix_refl _) (by simp)
      simpa using this
    have ih := scanSub_append hs hmatch hlit
      (fun a1 ha1 hne => h a1 (ha1.trans (List.suffix_cons c a')) hne)
    simp only [List.cons_append, List.length_cons, scanSub, hc, List.append_eq]
    rw [ih]

theorem suffix_append_cases :
    ∀ {u x y : List Char}, u <:+ (x ++ y) →
      u <:+ y ∨ ∃ x1, x1 <:+ x ∧ x1 ≠ [] ∧ u = x1 ++ y
  | u, [], y, h => Or.inl (by simpa using h)
  | u, a :: x', y, h => by
    rw [List.cons_append, List.suffix_cons_iff] at h
    rcases h with rfl | h2
    · exact Or.inr ⟨a :: x', List.suffix_refl _, by simp, by simp⟩
    · rcases suffix_append_cases h2 with hL | ⟨x1, h3, h4, h5⟩
      · exact Or.inl hL
      · exact Or.inr ⟨x1, h3.trans (List.suffix_cons a x'), h4, h5⟩

theorem takeWhile_append_all {p : Char → Bool} :
    ∀ {xs : List Char}, (∀ c ∈ xs, p c = true) → ∀ ys : List Char,
      (xs ++ ys).takeWhile p = xs ++ ys.takeWhile p
  | [], _, ys => by simp
  | x :: xs', h, ys => by
    have hx : p x = true := h x (by simp)
    have ih := takeWhile_append_all (fun c hc => h c (List.mem_cons_of_mem _ hc)) ys
    simp [List.takeWhile_cons, hx, ih]

theorem takeWhile_cons_neg {p : Char → Bool} {c : Char} (rest : List Char)
    (h : p c = false) : (c :: rest).takeWhile p = [] := by
  simp [List.takeWhile_cons, h]

theorem drop_takeWhile_length (p : Char → Bool) :
    ∀ l : List Char, l.drop (l.takeWhile p).length = l.dropWhile p
  | [] => rfl
  | c :: t => by
    cases h : p c with
    | true => simp [List.takeWhile_cons, List.dropWhile_cons, h,
        drop_takeWhile_length p t]
    | false => simp [List.takeWhile_cons, List.dropWhile_cons, h]

theorem dropWhile_append_all {p : Char → Bool} :
    ∀ {xs : List Char}, (∀ c ∈ xs, p c = true) → ∀ ys : List Char,
      (xs ++ ys).dropWhile p = ys.dropWhile p
  | [], _, ys => by simp
  | x :: xs', h, ys => by
    have hx : p x = true := h x (by simp)
    have ih := dropWhile_append_all (fun c hc => h c (List.mem_cons_of_mem _ hc)) ys
    simp [List.dropWhile_cons, hx, ih]

/-! ## Span characterization of the `fix_pillar_links` matcher -/

theorem dropLit_some {pat s r : List Char} (h : dropLit pat s = some r) :
    s = pat ++ r := by
  unfold dropLit at h
  by_cases hp : pat.isPrefixOf s
  · rw [if_pos hp] at h
    obtain ⟨t, ht⟩ := List.isPrefixOf_iff_prefix.mp hp
    have hdrop : s.drop pat.length = t := by rw [← ht, List.drop_left]
    rw [hdrop, Option.some.injEq] at h
    rw [← ht, h]
  · rw [if_neg hp] at h
    exact absurd h (by simp)

theorem dropLit_append (pat z : List Char) : dropLit pat (pat ++ z) = some z := by
  unfold dropLit
  rw [if_pos (List.isPrefixOf_iff_prefix.mpr (List.prefix_append pat z)),
    List.drop_left]

theorem dropLit_none {pat s : List Char} (h : dropLit pat s = none) :
    ¬ pat <+: s := by
  unfold dropLit at h
  by_cases hp : pat.isPrefixOf s
  · rw [if_pos hp] at h; exact absurd h (by simp)
  · exact fun hc => hp (List.isPrefixOf_iff_prefix.mpr hc)

theorem isEmpty_false_of_ne {l : List Char} (h : l ≠ []) : l.isEmpty = false := by
  cases l with
  | nil => exact absurd rfl h
  | cons a t => rfl

theorem ne_of_isEmpty_false {l : List Char} (h : l.isEmpty = false) : l ≠ [] := by
  cases l with
  | nil => exact absurd h (by simp)
  | cons a t => simp

theorem isUpperAZ_eq_false_of_digit {c : Char} (h : isDigit09 c = true) :
    isUpperAZ c = false := by
  unfold isDigit09 at h
  rw [Bool.and_eq_true, decide_eq_true_eq, decide_eq_true_eq] at h
  have hA : ¬ ('A' ≤ c) := fun hc => absurd (le_trans hc h.2) (by decide)
  unfold isUpperAZ
  simp [hA]

/-- The whole span matched by the `fix_pillar_links` pattern:
`href="./<us><ds><opt>"`. -/
def hrefSpan (us ds opt : List Char) : List Char :=
  ("href=\"./").toList ++ (us ++ (ds ++ (opt ++ ['"'])))

/-- The replacement emitted for that span: `href="<us><ds><opt>.html"`. -/
def hrefRepl (us ds opt : List Char) : List Char :=
  ("href=\"").toList ++ (us ++ (ds ++ (opt ++ (".html\"").toList)))

/-- Validity of the span pieces: a nonempty uppercase run, a nonempty digit
run, and an optional `-BP<digits>` group. -/
def SpanOK (us ds opt : List Char) : Prop :=
  us ≠ [] ∧ (∀ c ∈ us, isUpperAZ c = true) ∧
  ds ≠ [] ∧ (∀ c ∈ ds, isDigit09 c = true) ∧
  (opt = [] ∨ ∃ ds2, ds2 ≠ [] ∧ (∀ c ∈ ds2, isDigit09 c = true) ∧
    opt = '-' :: 'B' :: 'P' :: ds2)

theorem takeWhile_upper_stops {us ds : List Char} (z : List Char)
    (husall : ∀ c ∈ us, isUpperAZ c = true)
    (hds : ds ≠ []) (hdsall : ∀ c ∈ ds, isDigit09 c = true) :
    (us ++ (ds ++ z)).takeWhile isUpperAZ = us := by
  rw [takeWhile_append_all husall]
  cases ds with
  | nil => exact absurd rfl hds
  | cons d ds' =>
    rw [List.cons_append,
      takeWhile_cons_neg _ (isUpperAZ_eq_false_of_digit (hdsall d (by simp)))]
    simp

theorem takeWhile_digit_stops {ds : List Char} (c0 : Char) (z : List Char)
    (hdsall : ∀ c ∈ ds, isDigit09 c = true) (hc0 : isDigit09 c0 = false) :
    (ds ++ (c0 :: z)).takeWhile isDigit09 = ds := by
  rw [takeWhile_append_all hdsall, takeWhile_cons_neg _ hc0]
  simp

/-- The matcher accepts every valid span, consuming exactly the span. -/
theorem tryMatchHref_span {us ds opt : List Char} (h : SpanOK us ds opt)
    (x : List Char) :
    tryMatchHref (hrefSpan us ds opt ++ x) = some (hrefRepl us ds opt, x) := by
  obtain ⟨hus, husall, hds, hdsall, hopt⟩ := h
  have hshape : hrefSpan us ds opt ++ x =
      ("href=\"./").toList ++ (us ++ (ds ++ (opt ++ ('"' :: x)))) := by
    simp [hrefSpan]
  rw [hshape]
  simp only [tryMatchHref, dropLit_append]
  rw [takeWhile_upper_stops _ husall hds hdsall, isEmpty_false_of_ne hus]
  simp only [Bool.false_eq_true, if_false, List.drop_left]
  rcases hopt with rfl | ⟨ds2, hds2, hds2all, rfl⟩
  · rw [show (ds ++ (([] : List Char) ++ ('"' :: x))) = ds ++ ('"' :: x) by simp]
    rw [takeWhile_digit_stops '"' x hdsall (by decide), isEmpty_false_of_ne hds]
    simp only [Bool.false_eq_true, if_false, List.drop_left]
    have h1 : dropLit ("-BP").toList ('"' :: x) = none := by
      unfold dropLit
      rw [if_neg (by simp [List.isPrefixOf])]
    have h2 : dropLit ("\"").toList ('"' :: x) = some x := by
      have hq : ('"' :: x : List Char) = ("\"").toList ++ x := by simp
      rw [hq, dropLit_append]
    simp only [h1, h2]
    simp [hrefRepl]
  · have hsh2 : (ds ++ (('-' :: 'B' :: 'P' :: ds2) ++ ('"' :: x))) =
        ds ++ ('-' :: ('B' :: ('P' :: (ds2 ++ ('"' :: x))))) := by simp
    rw [hsh2]
    rw [takeWhile_digit_stops '-' ('B' :: ('P' :: (ds2 ++ ('"' :: x)))) hdsall
      (by decide), isEmpty_false_of_ne hds]
    simp only [Bool.false_eq_true, if_false, List.drop_left]
    rw [show ('-' :: ('B' :: ('P' :: (ds2 ++ ('"' :: x))))) =
      ("-BP").toList ++ (ds2 ++ ('"' :: x)) by simp]
    simp only [dropLit_append]
    rw [takeWhile_digit_stops '"' x hds2all (by decide), isEmpty_false_of_ne hds2]
    simp only [Bool.false_eq_true, if_false, List.drop_left]
    have h2 : dropLit ("\"").toList ('"' :: x) = some x := by
      have hq : ('"' :: x : List Char) = ("\"").toList ++ x := by simp
      rw [hq, dropLit_append]
    simp only [h2]
    simp [hrefRepl]

/-- Every successful match of the `fix_pillar_links` pattern has the span
shape. -/
theorem tryMatchHref_some {u r rem : List Char}
    (h : tryMatchHref u = some (r, rem)) :
    ∃ us ds opt, SpanOK us ds opt ∧ u = hrefSpan us ds opt ++ rem ∧
      r = hrefRepl us ds opt := by
  unfold tryMatchHref at h
  split at h
  · exact absurd h (by simp)
  next r1 heq0 =>
  simp only at h
  split at h
  · exact absurd h (by simp)
  next hie =>
  split at h
  · exact absurd h (by simp)
  next hie2 =>
  have hu : u = ("href=\"./").toList ++ r1 := dropLit_some heq0
  have hus : r1.takeWhile isUpperAZ ≠ [] :=
    ne_of_isEmpty_false (Bool.eq_false_iff.mpr hie)
  have hds : (r1.drop (r1.takeWhile isUpperAZ).length).takeWhile isDigit09 ≠ [] :=
    ne_of_isEmpty_false (Bool.eq_false_iff.mpr hie2)
  have hr1 : r1 = r1.takeWhile isUpperAZ ++
      r1.drop (r1.takeWhile isUpperAZ).length := by
    rw [drop_takeWhile_length]
    exact (List.takeWhile_append_dropWhile _ _).symm
  have hr2 : r1.drop (r1.takeWhile isUpperAZ).length =
      (r1.drop (r1.takeWhile isUpperAZ).length).takeWhile isDigit09 ++
        (r1.drop (r1.takeWhile isUpperAZ).length).drop
          ((r1.drop (r1.takeWhile isUpperAZ).length).takeWhile isDigit09).length := by
    simp only [drop_takeWhile_length]
    exact (List.takeWhile_append_dropWhile _ _).symm
  split at h
  case _ r4 heq1 =>
    split at h
    · exact absurd h (by simp)
    next hie3 =>
    split at h
    case _ rest heq2 =>
      rw [Option.some.injEq, Prod.mk.injEq] at h
      have hds2 : r4.takeWhile isDigit09 ≠ [] :=
        ne_of_isEmpty_false (Bool.eq_false_iff.mpr hie3)
      have hr4 : r4 = r4.takeWhile isDigit09 ++
          r4.drop (r4.takeWhile isDigit09).length := by
        rw [drop_takeWhile_length]
        exact (List.takeWhile_append_dropWhile _ _).symm
      refine ⟨r1.takeWhile isUpperAZ,
        (r1.drop (r1.takeWhile isUpperAZ).length).takeWhile isDigit09,
        '-' :: 'B' :: 'P' :: r4.takeWhile isDigit09,
        ⟨hus, fun c hc => List.mem_takeWhile_imp hc, hds,
          fun c hc => List.mem_takeWhile_imp hc,
          Or.inr ⟨r4.takeWhile isDigit09, hds2,
            fun c hc => List.mem_takeWhile_imp hc, rfl⟩⟩, ?_, ?_⟩
      · rw [hu, hrefSpan]
        have e3 := dropLit_some heq1
        have e4 := dropLit_some heq2
        rw [← h.2]
        conv_lhs => rw [hr1, hr2, e3, hr4, e4]
        simp
      · rw [← h.1]
        simp [hrefRepl]
    case _ heq2 => exact absurd h (by simp)
  case _ heq1 =>
    split at h
    case _ rest heq2 =>
      rw [Option.some.injEq, Prod.mk.injEq] at h
      refine ⟨r1.takeWhile isUpperAZ,
        (r1.drop (r1.takeWhile isUpperAZ).length).takeWhile isDigit09, [],
        ⟨hus, fun c hc => List.mem_takeWhile_imp hc, hds,
          fun c hc => List.mem_takeWhile_imp hc, Or.inl rfl⟩, ?_, ?_⟩
      · rw [hu, hrefSpan]
        have e4 := dropLit_some heq2
        rw [← h.2]
        conv_lhs => rw [hr1, hr2, e4]
        simp
      · rw [← h.1]
        simp [hrefRepl]
    case _ heq2 => exact absurd h (by simp)

theorem tryMatchHref_pre {u : List Char} {pr : List Char × List Char}
    (h : tryMatchHref u = some pr) : ("href=\"./").toList <+: u := by
  obtain ⟨r, rem⟩ := pr
  obtain ⟨us, ds, opt, _, hspan, _⟩ := tryMatchHref_some h
  rw [hspan, hrefSpan]
  exact (List.prefix_append _ _).trans (List.prefix_append _ _)

theorem tryMatchHref_shrink :
    ∀ s r rem, tryMatchHref s = some (r, rem) → rem.length < s.length := by
  intro s r rem h
  obtain ⟨us, ds, opt, _, hspan, _⟩ := tryMatchHref_some h
  rw [hspan]
  simp only [hrefSpan, List.length_append, List.length_cons]
  omega

/-! ## Structure of the `fix_pillar_links` substitution -/

theorem fix_sub_nil : fix_pillar_links_sub [] = [] := rfl

theorem fix_sub_cons_some {c : Char} {t r rem : List Char}
    (h : tryMatchHref (c :: t) = some (r, rem)) :
    fix_pillar_links_sub (c :: t) = r ++ fix_pillar_links_sub rem := by
  unfold fix_pillar_links_sub
  simp only [List.length_cons, scanSub, h]
  congr 1
  exact scanSub_fuel tryMatchHref_shrink t.length rem
    (by have := tryMatchHref_shrink _ _ _ h; simp only [List.length_cons] at this; omega)

theorem fix_sub_cons_none {c : Char} {t : List Char}
    (h : tryMatchHref (c :: t) = none) :
    fix_pillar_links_sub (c :: t) = c :: fix_pillar_links_sub t := by
  unfold fix_pillar_links_sub
  simp only [List.length_cons, scanSub, h]

theorem pat8_no_overlap :
    ∀ k, k < 8 → 0 < k →
      ¬ (("href=\"./").toList.drop k <+: ("href=\"./").toList) := by decide

theorem span_tail_hfree {us ds opt : List Char} (hok : SpanOK us ds opt) :
    'h' ∉ (("ref=\"./").toList ++ (us ++ (ds ++ (opt ++ ['"'])))) := by
  obtain ⟨_, husall, _, hdsall, hopt⟩ := hok
  intro hmem
  simp only [List.mem_append, List.mem_cons, List.not_mem_nil, or_false] at hmem
  rcases hmem with h1 | h2 | h3 | h4 | h5
  · revert h1; decide
  · have := husall _ h2
    revert this; decide
  · have := hdsall _ h3
    revert this; decide
  · rcases hopt with rfl | ⟨ds2, _, hds2all, rfl⟩
    · simp at h4
    · simp only [List.mem_cons] at h4
      rcases h4 with h4 | h4 | h4 | h4
      · revert h4; decide
      · revert h4; decide
      · revert h4; decide
      · have := hds2all _ h4
        revert this; decide
  · revert h5; decide

/-- Prefixes of the substitution's output that contain no `h` are already
prefixes of the input: the scan only ever inserts text starting with `h`. -/
theorem prefix_transfer : ∀ (n : Nat) (t : List Char), t.length ≤ n →
    ∀ m, 'h' ∉ m → m <+: fix_pillar_links_sub t → m <+: t
  | _, [], _, m, _, hp => by
    rw [fix_sub_nil] at hp
    simpa using hp
  | 0, c :: t, hlen, _, _, _ => by simp at hlen
  | n + 1, c :: t, hlen, m, hh, hp => by
    have hlt : t.length ≤ n := by
      simp only [List.length_cons] at hlen; omega
    cases h : tryMatchHref (c :: t) with
    | some pr =>
      obtain ⟨r, rem⟩ := pr
      rw [fix_sub_cons_some h] at hp
      obtain ⟨us, ds, opt, hok, hspan, hrepl⟩ := tryMatchHref_some h
      cases m with
      | nil => exact List.nil_prefix
      | cons m0 m' =>
        exfalso
        have hr : r ++ fix_pillar_links_sub rem =
            'h' :: ((("ref=\"").toList ++
              (us ++ (ds ++ (opt ++ (".html\"").toList)))) ++
                fix_pillar_links_sub rem) := by
          rw [hrepl]; simp [hrefRepl]
        rw [hr, List.cons_prefix_cons] at hp
        exact hh (hp.1 ▸ List.mem_cons_self _ _)
    | none =>
      rw [fix_sub_cons_none h] at hp
      cases m with
      | nil => exact List.nil_prefix
      | cons m0 m' =>
        rw [List.cons_prefix_cons] at hp ⊢
        exact ⟨hp.1, prefix_transfer n t hlt m'
          (fun hm => hh (List.mem_cons_of_mem _ hm)) hp.2⟩

/-- A position with no match keeps having no match after the rest of the
text is rewritten: rewriting cannot create a new match. -/
theorem tryMatchHref_none_step {c : Char} {t : List Char}
    (h : tryMatchHref (c :: t) = none) :
    tryMatchHref (c :: fix_pillar_links_sub t) = none := by
  cases h2 : tryMatchHref (c :: fix_pillar_links_sub t) with
  | none => rfl
  | some pr =>
    exfalso
    obtain ⟨r, rem⟩ := pr
    obtain ⟨us, ds, opt, hok, hspan, _⟩ := tryMatchHref_some h2
    have hsh : hrefSpan us ds opt ++ rem =
        'h' :: ((("ref=\"./").toList ++ (us ++ (ds ++ (opt ++ ['"'])))) ++ rem) := by
      simp [hrefSpan]
    rw [hsh, List.cons.injEq] at hspan
    obtain ⟨hc, htail⟩ := hspan
    have hm0pre : (("ref=\"./").toList ++ (us ++ (ds ++ (opt ++ ['"'])))) <+:
        fix_pillar_links_sub t := ⟨rem, htail.symm⟩
    have htpre := prefix_transfer t.length t (le_refl _) _
      (span_tail_hfree hok) hm0pre
    obtain ⟨rem2, hrem2⟩ := htpre
    have hct : (c :: t) = hrefSpan us ds opt ++ rem2 := by
      rw [hc, ← hrem2, hrefSpan]
      simp
    rw [hct, tryMatchHref_span hok rem2] at h
    exact absurd h (by simp)

theorem head_eq_of_pre {p0 c : Char} {ps rest : List Char}
    (h : (p0 :: ps) <+: (c :: rest)) : p0 = c :=
  (List.cons_prefix_cons.mp h).1

/-- No nonempty suffix of an emitted replacement can start a new match,
whatever follows it. -/
theorem repl_suffix_no_match {us ds opt : List Char} (hok : SpanOK us ds opt)
    {r1 : List Char} (hr1 : r1 <:+ hrefRepl us ds opt) (hne : r1 ≠ [])
    (z : List Char) : tryMatchHref (r1 ++ z) = none := by
  obtain ⟨hus, husall, hds, hdsall, hopt⟩ := hok
  cases hmm : tryMatchHref (r1 ++ z) with
  | none => rfl
  | some pr =>
    exfalso
    have hp : ("href=\"./").toList <+: r1 ++ z := tryMatchHref_pre hmm
    unfold hrefRepl at hr1
    rcases suffix_append_cases hr1 with hr2 | ⟨x1, hx1, hxne, rfl⟩
    · -- inside us ++ (ds ++ (opt ++ B))
      rcases suffix_append_cases hr2 with hr3 | ⟨x1, hx1, hxne, rfl⟩
      · -- inside ds ++ (opt ++ B)
        rcases suffix_append_cases hr3 with hr4 | ⟨x1, hx1, hxne, rfl⟩
        · -- inside opt ++ B
          rcases suffix_append_cases hr4 with hr5 | ⟨x1, hx1, hxne, rfl⟩
          · -- inside B = ".html\""
            rw [← List.mem_tails] at hr5
            fin_cases hr5 <;>
              first
                | exact hne rfl
                | (exfalso; revert hp; simp [List.cons_prefix_cons])
          · -- starts inside opt
            cases x1 with
            | nil => exact hxne rfl
            | cons c0 cs =>
              have hc0 : c0 = 'h' := by
                simp [List.cons_prefix_cons] at hp
                exact hp.1.symm
              have hcm : c0 ∈ opt := hx1.subset (by simp)
              rcases hopt with rfl | ⟨ds2, _, hds2all, rfl⟩
              · simp at hcm
              · subst hc0
                simp only [List.mem_cons] at hcm
                rcases hcm with hcm | hcm | hcm | hcm
                · revert hcm; decide
                · revert hcm; decide
                · revert hcm; decide
                · have := hds2all _ hcm
                  revert this; decide
        · -- starts inside ds
          cases x1 with
          | nil => exact hxne rfl
          | cons c0 cs =>
            have hc0 : c0 = 'h' := by
              simp [List.cons_prefix_cons] at hp
              exact hp.1.symm
            have hcm : c0 ∈ ds := hx1.subset (by simp)
            subst hc0
            have := hdsall _ hcm
            revert this; decide
      · -- starts inside us
        cases x1 with
        | nil => exact hxne rfl
        | cons c0 cs =>
          have hc0 : c0 = 'h' := by
            simp [List.cons_prefix_cons] at hp
            exact hp.1.symm
          have hcm : c0 ∈ us := hx1.subset (by simp)
          subst hc0
          have := husall _ hcm
          revert this; decide
    · -- starts inside A = "href=\""
      rw [← List.mem_tails] at hx1
      fin_cases hx1
      · -- x1 = "href=\"" : the would-be match needs `./` where `us` starts
        cases us with
        | nil => exact hus rfl
        | cons u0 us' =>
          simp [List.cons_prefix_cons] at hp
          have := husall u0 (by simp)
          rw [← hp.1] at this
          revert this; decide
      · revert hp; simp [List.cons_prefix_cons]
      · revert hp; simp [List.cons_prefix_cons]
      · revert hp; simp [List.cons_prefix_cons]
      · revert hp; simp [List.cons_prefix_cons]
      · revert hp; simp [List.cons_prefix_cons]
      · exact absurd rfl hxne

/-- No suffix of the substitution's output matches the pattern. -/
theorem fix_sub_no_match : ∀ (n : Nat) (s : List Char), s.length ≤ n →
    ∀ u, u <:+ fix_pillar_links_sub s → tryMatchHref u = none
  | _, [], _, u, hu => by
    rw [fix_sub_nil] at hu
    have : u = [] := by simpa using hu
    subst this
    rfl
  | 0, c :: t, hlen, _, _ => by simp at hlen
  | n + 1, c :: t, hlen, u, hu => by
    have hlt : t.length ≤ n := by
      simp only [List.length_cons] at hlen; omega
    cases h : tryMatchHref (c :: t) with
    | some pr =>
      obtain ⟨r, rem⟩ := pr
      rw [fix_sub_cons_some h] at hu
      obtain ⟨us, ds, opt, hok, hspan, hrepl⟩ := tryMatchHref_some h
      have hremlen : rem.length ≤ n := by
        have := tryMatchHref_shrink _ _ _ h
        simp only [List.length_cons] at this; omega
      rcases suffix_append_cases hu with hR | ⟨x1, hx1, hxne, rfl⟩
      · exact fix_sub_no_match n rem hremlen u hR
      · rw [hrepl] at hx1
        exact repl_suffix_no_match hok hx1 hxne _
    | none =>
      rw [fix_sub_cons_none h] at hu
      rcases List.suffix_cons_iff.mp hu with rfl | hR
      · exact tryMatchHref_none_step h
      · exact fix_sub_no_match n t hlt u hR

/-- C10: the `fix_pillar_links` substitution is idempotent — applying it to
its own output changes nothing, because a rewritten link `href="<ID>.html"`
no longer matches the pattern `href="./<ID>"`, and the rewrite can create
no new match. -/
theorem fix_pillar_links_idempotent (s : List Char) :
    fix_pillar_links_sub (fix_pillar_links_sub s) = fix_pillar_links_sub s :=
  scanSub_id _ (fun u hu => fix_sub_no_match s.length s (le_refl _) u hu)

/-! ## Occurrence-wise behaviour of the two link substitutions (C5) -/

theorem tryMatchHref_none_in_pre {a rest : List Char}
    (ha : ¬ ("href=\"./").toList <:+: a)
    (hrest : ("href=\"./").toList <+: rest) :
    ∀ a1, a1 <:+ a → a1 ≠ [] → tryMatchHref (a1 ++ rest) = none := by
  intro a1 ha1 hne
  cases h : tryMatchHref (a1 ++ rest) with
  | none => rfl
  | some pr =>
    exfalso
    have hp := tryMatchHref_pre h
    rcases pre_append_cases hp with hL | ⟨y1, hy1, hy2⟩
    · exact ha (infix_of_pre_of_suffix hL ha1)
    · by_cases hy : y1 = []
      · subst hy
        rw [List.append_nil] at hy1
        exact ha (infix_of_pre_of_suffix (hy1 ▸ List.prefix_refl _) ha1)
      · have hk1 : 0 < a1.length := List.length_pos.mpr hne
        have h8 : ("href=\"./").toList.length = 8 := rfl
        have hky : a1.length + y1.length = 8 := by
          have := congrArg List.length hy1
          simp only [List.length_append, h8] at this
          omega
        have hk8 : a1.length < 8 := by
          have : 0 < y1.length := List.length_pos.mpr hy
          omega
        have hydrop : y1 = ("href=\"./").toList.drop a1.length := by
          rw [hy1, List.drop_left]
        have hylen : y1.length ≤ 8 := by omega
        have hprey : y1 <+: ("href=\"./").toList :=
          List.prefix_of_prefix_length_le hy2 hrest (by rw [h8]; omega)
        rw [hydrop] at hprey
        exact pat8_no_overlap a1.length hk8 hk1 hprey

/-- For every occurrence of a link span preceded by pattern-free text,
`fix_pillar_links` rewrites exactly that occurrence and continues after it. -/
theorem fix_links_occ {a b us ds opt : List Char} (hok : SpanOK us ds opt)
    (ha : ¬ ("href=\"./").toList <:+: a) :
    fix_pillar_links_sub (a ++ (hrefSpan us ds opt ++ b)) =
      a ++ (hrefRepl us ds opt ++ fix_pillar_links_sub b) := by
  have hpre : ("href=\"./").toList <+: hrefSpan us ds opt ++ b :=
    ((List.prefix_append _ _).trans (List.prefix_append _ _))
  unfold fix_pillar_links_sub
  exact scanSub_append tryMatchHref_shrink (tryMatchHref_span hok b)
    (by simp [hrefSpan]) (tryMatchHref_none_in_pre ha hpre)

/-- On pattern-free text `fix_pillar_links` is the identity. -/
theorem fix_links_id {s : List Char}
    (h : ¬ ("href=\"./").toList <:+: s) : fix_pillar_links_sub s = s :=
  scanSub_id _ (fun u hu => by
    cases hm : tryMatchHref u with
    | none => rfl
    | some pr =>
      exact absurd (infix_of_pre_of_suffix (tryMatchHref_pre hm) hu) h)

/-! The analogous lemmas for `fix_pillar_index_links` with pillar prefix
`SEC`. -/

/-- The span matched by the `fix_pillar_index_links` pattern for `SEC`:
`href="SEC<ds><opt>.html"`. -/
def idxSpan (ds opt : List Char) : List Char :=
  ("href=\"SEC").toList ++ (ds ++ (opt ++ (".html\"").toList))

/-- The replacement emitted for that span: `href="./SEC<ds><opt>.html"`. -/
def idxRepl (ds opt : List Char) : List Char :=
  ("href=\"./SEC").toList ++ (ds ++ (opt ++ (".html\"").toList))

/-- Validity of the index-link span pieces. -/
def IdxOK (ds opt : List Char) : Prop :=
  ds ≠ [] ∧ (∀ c ∈ ds, isDigit09 c = true) ∧
  (opt = [] ∨ ∃ ds2, ds2 ≠ [] ∧ (∀ c ∈ ds2, isDigit09 c = true) ∧
    opt = '-' :: 'B' :: 'P' :: ds2)

theorem tryMatchIdx_span {ds opt : List Char} (h : IdxOK ds opt)
    (x : List Char) :
    tryMatchIdxHref ("SEC").toList (idxSpan ds opt ++ x) =
      some (idxRepl ds opt, x) := by
  obtain ⟨hds, hdsall, hopt⟩ := h
  have hshape : idxSpan ds opt ++ x =
      (("href=\"").toList ++ ("SEC").toList) ++
        (ds ++ (opt ++ ('.' :: ('h' :: ('t' :: ('m' :: ('l' :: ('"' :: x)))))))) := by
    simp [idxSpan]
  rw [hshape]
  simp only [tryMatchIdxHref, dropLit_append]
  rcases hopt with rfl | ⟨ds2, hds2, hds2all, rfl⟩
  · rw [show (ds ++ (([] : List Char) ++
        ('.' :: ('h' :: ('t' :: ('m' :: ('l' :: ('"' :: x)))))))) =
      ds ++ ('.' :: ('h' :: ('t' :: ('m' :: ('l' :: ('"' :: x)))))) by simp]
    rw [takeWhile_digit_stops '.' _ hdsall (by decide), isEmpty_false_of_ne hds]
    simp only [Bool.false_eq_true, if_false, List.drop_left]
    have h1 : dropLit ("-BP").toList
        ('.' :: ('h' :: ('t' :: ('m' :: ('l' :: ('"' :: x)))))) = none := by
      unfold dropLit
      rw [if_neg (by simp [List.isPrefixOf])]
    have h2 : dropLit (".html\"").toList
        ('.' :: ('h' :: ('t' :: ('m' :: ('l' :: ('"' :: x)))))) = some x := by
      rw [show ('.' :: ('h' :: ('t' :: ('m' :: ('l' :: ('"' :: x))))) : List Char) =
        (".html\"").toList ++ x by simp, dropLit_append]
    simp only [h1, h2]
    simp [idxRepl]
  · rw [show (ds ++ (('-' :: 'B' :: 'P' :: ds2) ++
        ('.' :: ('h' :: ('t' :: ('m' :: ('l' :: ('"' :: x)))))))) =
      ds ++ ('-' :: ('B' :: ('P' :: (ds2 ++
        ('.' :: ('h' :: ('t' :: ('m' :: ('l' :: ('"' :: x)))))))))) by simp]
    rw [takeWhile_digit_stops '-' _ hdsall (by decide), isEmpty_false_of_ne hds]
    simp only [Bool.false_eq_true, if_false, List.drop_left]
    rw [show ('-' :: ('B' :: ('P' :: (ds2 ++
        ('.' :: ('h' :: ('t' :: ('m' :: ('l' :: ('"' :: x)))))))))) =
      ("-BP").toList ++ (ds2 ++
        ('.' :: ('h' :: ('t' :: ('m' :: ('l' :: ('"' :: x))))))) by simp]
    simp only [dropLit_append]
    rw [takeWhile_digit_stops '.' _ hds2all (by decide), isEmpty_false_of_ne hds2]
    simp only [Bool.false_eq_true, if_false, List.drop_left]
    have h2 : dropLit (".html\"").toList
        ('.' :: ('h' :: ('t' :: ('m' :: ('l' :: ('"' :: x)))))) = some x := by
      rw [show ('.' :: ('h' :: ('t' :: ('m' :: ('l' :: ('"' :: x))))) : List Char) =
        (".html\"").toList ++ x by simp, dropLit_append]
    simp only [h2]
    simp [idxRepl]

theorem tryMatchIdx_pre {pfx u : List Char} {pr : List Char × List Char}
    (h : tryMatchIdxHref pfx u = some pr) :
    (("href=\"").toList ++ pfx) <+: u := by
  unfold tryMatchIdxHref at h
  split at h
  · exact absurd h (by simp)
  next r1 heq => exact (dropLit_some heq) ▸ List.prefix_append _ _

theorem tryMatchIdx_consumed {pfx u r rem : List Char}
    (h : tryMatchIdxHref pfx u = some (r, rem)) :
    ∃ m, m ≠ [] ∧ u = m ++ rem := by
  unfold tryMatchIdxHref at h
  split at h
  · exact absurd h (by simp)
  next r1 heq0 =>
  simp only at h
  split at h
  · exact absurd h (by simp)
  next hie =>
  have hu : u = (("href=\"").toList ++ pfx) ++ r1 := dropLit_some heq0
  have hr1 : r1 = r1.takeWhile isDigit09 ++
      r1.drop (r1.takeWhile isDigit09).length := by
    rw [drop_takeWhile_length]
    exact (List.takeWhile_append_dropWhile _ _).symm
  split at h
  case _ r3 heq1 =>
    split at h
    · exact absurd h (by simp)
    next hie2 =>
    split at h
    case _ rest heq2 =>
      rw [Option.some.injEq, Prod.mk.injEq] at h
      have hr3 : r3 = r3.takeWhile isDigit09 ++
          r3.drop (r3.takeWhile isDigit09).length := by
        rw [drop_takeWhile_length]
        exact (List.takeWhile_append_dropWhile _ _).symm
      refine ⟨(("href=\"").toList ++ pfx) ++ (r1.takeWhile isDigit09 ++
        (("-BP").toList ++ (r3.takeWhile isDigit09 ++ (".html\"").toList))),
        by simp, ?_⟩
      rw [hu, ← h.2]
      conv_lhs => rw [hr1, dropLit_some heq1, hr3, dropLit_some heq2]
      simp
    case _ heq2 => exact absurd h (by simp)
  case _ heq1 =>
    split at h
    case _ rest heq2 =>
      rw [Option.some.injEq, Prod.mk.injEq] at h
      refine ⟨(("href=\"").toList ++ pfx) ++ (r1.takeWhile isDigit09 ++
        (".html\"").toList), by simp, ?_⟩
      rw [hu, ← h.2]
      conv_lhs => rw [hr1, dropLit_some heq2]
      simp
    case _ heq2 => exact absurd h (by simp)

theorem tryMatchIdx_shrink :
    ∀ s r rem, tryMatchIdxHref ("SEC").toList s = some (r, rem) →
      rem.length < s.length := by
  intro s r rem h
  obtain ⟨m, hm, hs⟩ := tryMatchIdx_consumed h
  rw [hs]
  have : 0 < m.length := List.length_pos.mpr hm
  simp only [List.length_append]
  omega

theorem pat9_no_overlap :
    ∀ k, k < 9 → 0 < k →
      ¬ ((("href=\"SEC").toList).drop k <+: ("href=\"SEC").toList) := by decide

theorem tryMatchIdx_none_in_pre {a rest : List Char}
    (ha : ¬ ("href=\"SEC").toList <:+: a)
    (hrest : ("href=\"SEC").toList <+: rest) :
    ∀ a1, a1 <:+ a → a1 ≠ [] →
      tryMatchIdxHref ("SEC").toList (a1 ++ rest) = none := by
  intro a1 ha1 hne
  cases h : tryMatchIdxHref ("SEC").toList (a1 ++ rest) with
  | none => rfl
  | some pr =>
    exfalso
    have hp : ("href=\"SEC").toList <+: a1 ++ rest := by
      have := tryMatchIdx_pre h
      simpa using this
    rcases pre_append_cases hp with hL | ⟨y1, hy1, hy2⟩
    · exact ha (infix_of_pre_of_suffix hL ha1)
    · by_cases hy : y1 = []
      · subst hy
        rw [List.append_nil] at hy1
        exact ha (infix_of_pre_of_suffix (hy1 ▸ List.prefix_refl _) ha1)
      · have hk1 : 0 < a1.length := List.length_pos.mpr hne
        have h9 : ("href=\"SEC").toList.length = 9 := rfl
        have hky : a1.length + y1.length = 9 := by
          have := congrArg List.length hy1
          simp only [List.length_append, h9] at this
          omega
        have hk9 : a1.length < 9 := by
          have : 0 < y1.length := List.length_pos.mpr hy
          omega
        have hydrop : y1 = ("href=\"SEC").toList.drop a1.length := by
          rw [hy1, List.drop_left]
        have hprey : y1 <+: ("href=\"SEC").toList :=
          List.prefix_of_prefix_length_le hy2 hrest (by rw [h9]; omega)
        rw [hydrop] at hprey
        exact pat9_no_overlap a1.length hk9 hk1 hprey

theorem fix_idx_occ {a b ds opt : List Char} (hok : IdxOK ds opt)
    (ha : ¬ ("href=\"SEC").toList <:+: a) :
    fix_pillar_index_links_sub ("SEC").toList (a ++ (idxSpan ds opt ++ b)) =
      a ++ (idxRepl ds opt ++ fix_pillar_index_links_sub ("SEC").toList b) := by
  have hpre : ("href=\"SEC").toList <+: idxSpan ds opt ++ b := by
    have : ("href=\"SEC").toList <+: idxSpan ds opt := by
      rw [idxSpan]
      exact (by simp [List.prefix_append] : (("href=\"SEC").toList : List Char) <+:
        ("href=\"SEC").toList ++ (ds ++ (opt ++ (".html\"").toList)))
    exact this.trans (List.prefix_append _ _)
  unfold fix_pillar_index_links_sub
  exact scanSub_append tryMatchIdx_shrink (tryMatchIdx_span hok b)
    (by simp [idxSpan]) (tryMatchIdx_none_in_pre ha hpre)

theorem fix_idx_id {s : List Char}
    (h : ¬ ("href=\"SEC").toList <:+: s) :
    fix_pillar_index_links_sub ("SEC").toList s = s :=
  scanSub_id _ (fun u hu => by
    cases hm : tryMatchIdxHref ("SEC").toList u with
    | none => rfl
    | some pr =>
      exact absurd (infix_of_pre_of_suffix (by simpa using tryMatchIdx_pre hm) hu) h)

/-- C5: `fix_pillar_links` maps each occurrence of an `href="./<ID>"` link
(ID an uppercase run, digits, optional `-BP<digits>`) to exactly
`href="<ID>.html"`, continuing unchanged around it, and leaves pattern-free
text unchanged; `fix_pillar_index_links` with pillar prefix `SEC` maps each
occurrence of `href="SEC<n>[-BP<m>].html"` to exactly
`href="./SEC<n>[-BP<m>].html"` and leaves pattern-free text unchanged. -/
theorem link_fix_substitutions :
    (∀ a b us ds opt, SpanOK us ds opt → ¬ ("href=\"./").toList <:+: a →
      fix_pillar_links_sub (a ++ (hrefSpan us ds opt ++ b)) =
        a ++ (hrefRepl us ds opt ++ fix_pillar_links_sub b)) ∧
    (∀ s, ¬ ("href=\"./").toList <:+: s → fix_pillar_links_sub s = s) ∧
    (∀ a b ds opt, IdxOK ds opt → ¬ ("href=\"SEC").toList <:+: a →
      fix_pillar_index_links_sub ("SEC").toList (a ++ (idxSpan ds opt ++ b)) =
        a ++ (idxRepl ds opt ++ fix_pillar_index_links_sub ("SEC").toList b)) ∧
    (∀ s, ¬ ("href=\"SEC").toList <:+: s →
      fix_pillar_index_links_sub ("SEC").toList s = s) :=
  ⟨fun _ _ _ _ _ hok ha => fix_links_occ hok ha,
   fun _ h => fix_links_id h,
   fun _ _ _ _ hok ha => fix_idx_occ hok ha,
   fun _ h => fix_idx_id h⟩

/-- Witness for C5 at the claim's concrete links `href="./SEC01"` and
`href="SEC01-BP01.html"`. -/
theorem link_fix_substitutions_witness :
    fix_pillar_links_sub
        (("<p>").toList ++ (hrefSpan ("SEC").toList ("01").toList [] ++ (" x").toList)) =
      ("<p>").toList ++
        (hrefRepl ("SEC").toList ("01").toList [] ++ fix_pillar_links_sub (" x").toList) ∧
    fix_pillar_links_sub ("plain text").toList = ("plain text").toList ∧
    fix_pillar_index_links_sub ("SEC").toList
        (("<p>").toList ++
          (idxSpan ("01").toList ('-' :: 'B' :: 'P' :: ("01").toList) ++ (" x").toList)) =
      ("<p>").toList ++
        (idxRepl ("01").toList ('-' :: 'B' :: 'P' :: ("01").toList) ++
          fix_pillar_index_links_sub ("SEC").toList (" x").toList) ∧
    fix_pillar_index_links_sub ("SEC").toList ("plain text").toList =
      ("plain text").toList :=
  ⟨link_fix_substitutions.1 _ _ _ _ _
     ⟨by decide, by decide, by decide, by decide, Or.inl rfl⟩ (by decide),
   link_fix_substitutions.2.1 _ (by decide),
   link_fix_substitutions.2.2.1 _ _ _ _
     ⟨by decide, by decide, Or.inr ⟨("01").toList, by decide, by decide, rfl⟩⟩
     (by decide),
   link_fix_substitutions.2.2.2 _ (by decide)⟩

/-! ## Claim theorems: page-generation failure handling (C7) -/

/-- C7: whenever the fetch or parse of the framework appendix fails (the
`try` block raises), the script logs the exception, then logs the failure
message and exits with code 1, generating no question files. -/
theorem generate_pages_abort_on_failure (e : List Char) :
    generate_pages_main (Except.error e) =
      ([("Fetching AWS Well-Architected Framework questions...").toList,
        ("Error fetching WAFR questions: ").toList ++ e,
        ("Failed to fetch questions. Exiting.").toList], 1, []) := rfl

/-! ## Claim theorems: registry re-tagging call order (C8) -/

theorem issue_calls_pre (ok : EcrCall → Bool) :
    ∀ calls : List EcrCall, issue_calls ok calls <+: calls
  | [] => List.prefix_refl _
  | c :: cs => by
    unfold issue_calls
    by_cases h : ok c = true
    · rw [if_pos h]
      exact List.cons_prefix_cons.mpr ⟨rfl, issue_calls_pre ok cs⟩
    · rw [if_neg h]
      exact List.cons_prefix_cons.mpr ⟨rfl, List.nil_prefix⟩

theorem infix_concatAll {α : Type} {x : List α} :
    ∀ {ls : List (List α)}, x ∈ ls → x <:+: concatAll ls
  | [], hx => by simp at hx
  | l :: ls', hx => by
    rcases List.mem_cons.mp hx with rfl | hx'
    · exact (List.prefix_append x (concatAll ls')).isInfix
    · exact (infix_concatAll hx').trans (List.suffix_append l (concatAll ls')).isInfix

/-- C8: for every tagged image, the re-tagging script issues exactly the
four calls put-temp, delete-original, put-original, delete-temp in that
order (the delete of the original tag at position 1 preceding the put that
restores it at position 2); each per-image call sequence occurs inside the
whole run's trace; and under any failure the issued calls are a prefix of
that sequence — in particular no recovery call is issued after a failure. -/
theorem ecr_retag_order (repo tag manifest : List Char) :
    retag_calls repo tag manifest =
      [EcrCall.putImage repo (tag ++ ("-temp").toList) manifest,
       EcrCall.deleteImage repo tag,
       EcrCall.putImage repo tag manifest,
       EcrCall.deleteImage repo (tag ++ ("-temp").toList)] ∧
    (retag_calls repo tag manifest)[1]? = some (EcrCall.deleteImage repo tag) ∧
    (retag_calls repo tag manifest)[2]? = some (EcrCall.putImage repo tag manifest) ∧
    (∀ ok, issue_calls ok (retag_calls repo tag manifest) <+:
      retag_calls repo tag manifest) ∧
    (∀ repos imgs, (repo, imgs) ∈ repos → (tag, manifest) ∈ imgs →
      retag_calls repo tag manifest <:+: ecr_script_calls repos) :=
  ⟨rfl, rfl, rfl,
   fun ok => issue_calls_pre ok _,
   fun repos imgs hr hi => by
     unfold ecr_script_calls
     have h1 : retag_calls repo tag manifest ∈
         imgs.map (fun im => retag_calls repo im.1 im.2) :=
       List.mem_map.mpr ⟨(tag, manifest), hi, rfl⟩
     have h2 : concatAll (imgs.map (fun im => retag_calls repo im.1 im.2)) ∈
         repos.map (fun rp => concatAll (rp.2.map (fun im => retag_calls rp.1 im.1 im.2))) :=
       List.mem_map.mpr ⟨(repo, imgs), hr, rfl⟩
     exact (infix_concatAll h1).trans (infix_concatAll h2)⟩

/-- Witness for C8 at a concrete repository and image. -/
theorem ecr_retag_order_witness :
    retag_calls ("app").toList ("v1").toList ("m1").toList <:+:
      ecr_script_calls [(("app").toList, [(("v1").toList, ("m1").toList)])] :=
  (ecr_retag_order ("app").toList ("v1").toList ("m1").toList).2.2.2.2
    [(("app").toList, [(("v1").toList, ("m1").toList)])]
    [(("v1").toList, ("m1").toList)] (by simp) (by simp)

/-! ## Claim theorems: nav_order editing (C9) -/

theorem update_nav_id (n : Nat) :
    ∀ {lines : List (List Char)}, (∀ l ∈ lines, startsNavOrder l = false) →
      update_nav_lines n lines = lines
  | [], _ => rfl
  | l :: ls, h => by
    have h1 : startsNavOrder l = false := h l (by simp)
    rw [update_nav_lines, if_neg (by simp [h1]),
      update_nav_id n (fun l' hl' => h l' (List.mem_cons_of_mem _ hl'))]

theorem update_nav_first (n : Nat) {l : List Char} (hl : startsNavOrder l = true) :
    ∀ {pre : List (List Char)} (post : List (List Char)),
      (∀ l' ∈ pre, startsNavOrder l' = false) →
      update_nav_lines n (pre ++ l :: post) = pre ++ navOrderLine n :: post
  | [], post, _ => by
    rw [List.nil_append, update_nav_lines, if_pos hl, List.nil_append]
  | p :: pre', post, h => by
    have h1 : startsNavOrder p = false := h p (by simp)
    rw [List.cons_append, update_nav_lines, if_neg (by simp [h1]),
      update_nav_first n hl post (fun l' hl' => h l' (List.mem_cons_of_mem _ hl')),
      List.cons_append]

/-- C9: `update_pillar_nav_order` replaces exactly the first line whose
stripped text starts with `nav_order:` by `nav_order: <n>` and writes every
other line back unchanged; when no line matches, the content written is the
original, line for line. -/
theorem update_nav_lines_frame (n : Nat) :
    (∀ lines : List (List Char), (∀ l ∈ lines, startsNavOrder l = false) →
      update_nav_lines n lines = lines) ∧
    (∀ (pre : List (List Char)) (l : List Char) (post : List (List Char)),
      (∀ l' ∈ pre, startsNavOrder l' = false) → startsNavOrder l = true →
      update_nav_lines n (pre ++ l :: post) = pre ++ navOrderLine n :: post) :=
  ⟨fun _ h => update_nav_id n h,
   fun _ _ post h hl => update_nav_first n hl post h⟩

/-- Witness for C9 at a concrete front-matter file. -/
theorem update_nav_lines_frame_witness :
    update_nav_lines 2
        [("---\n").toList, ("title: Security\n").toList, ("nav_order: 5\n").toList,
         ("has_children: true\n").toList, ("---\n").toList] =
      [("---\n").toList, ("title: Security\n").toList, ("nav_order: 2\n").toList,
       ("has_children: true\n").toList, ("---\n").toList] ∧
    update_nav_lines 2 [("---\n").toList, ("title: x\n").toList, ("---\n").toList] =
      [("---\n").toList, ("title: x\n").toList, ("---\n").toList] := by
  constructor
  · have h := (update_nav_lines_frame 2).2
      [("---\n").toList, ("title: Security\n").toList] ("nav_order: 5\n").toList
      [("has_children: true\n").toList, ("---\n").toList]
      (by decide) (by decide)
    rw [show (navOrderLine 2 : List Char) = ("nav_order: 2\n").toList by rfl] at h
    exact h
  · exact (update_nav_lines_frame 2).1 _ (by decide)

end Wafr
